import Mathlib

/-!
Form intake handler of `server.js`

A shallow embedding of `validate`, `handleForm` and the two route registrations
of `src/server.js`, together with the fragment of JavaScript evaluation
those functions rely on (truthiness, `||`, property reads, `String(...)`,
`String.prototype.trim`, exceptions caught by `try`/`catch`).

Modelling conventions:

* JavaScript values are the values the body parsers can put into `req.body`
  (`undefined`, `null`, booleans, numbers, strings, arrays and plain objects)
  and the members that a property read finds on the built-in prototypes.
  Numbers are the integers of magnitude below 2^53, strings are Lean strings.
* A property read `o[k]` looks at the own properties of `o` and then at its
  prototype: `Object.prototype` for a parsed object, `Array.prototype` and
  `Object.prototype` for a parsed array.  An inherited member is a native
  function or, under the name `__proto__`, the prototype object; neither has a
  callable `trim`.  The parsers never put a primitive into `req.body`; a read on
  a primitive is modelled with its own properties and the members of
  `Object.prototype` only (the methods of `String.prototype` and
  `Number.prototype` are left out).
* Effects (`res.status(..).json(..)`, `transporter.sendMail(..)`, `console.log`,
  `console.error`) are recorded, in program order, in an explicit trace.
* The promise returned by `sendMail` resolves, rejects, or never settles; in the
  last case `await` does not return and nothing after line 66 runs.
* The built-in `Number` and the library function `nodemailer.createTransport`
  are parameters of `createTransporter`; a number that is not an integer (NaN,
  an infinity, a fraction) is `none`.
-/

namespace BreakingDevLab

/-! ## JavaScript values -/

/-- Values that can occur in a parsed request body, and `builtin`: a member found
on a built-in prototype (a native function, or the prototype object itself when
read through `__proto__`), given by the string that `String(...)` makes of it. -/
inductive JsVal where
  | undefined : JsVal
  | null : JsVal
  | bool (b : Bool) : JsVal
  | num (n : Int) : JsVal
  | str (s : String) : JsVal
  | arr (items : List JsVal) : JsVal
  | obj (props : List (String × JsVal)) : JsVal
  | builtin (rendering : String) : JsVal

/-- Exceptions that the modelled code can raise or receive. -/
inductive JsError where
  | typeError (msg : String) : JsError
  | mailError (msg : String) : JsError
  deriving DecidableEq

deriving instance DecidableEq for Except

/-- ToBoolean: the falsy values are `undefined`, `null`, `false`, `0` and `''`. -/
def truthy : JsVal → Bool
  | .undefined => false
  | .null => false
  | .bool b => b
  | .num n => n != 0
  | .str s => s != ""
  | .arr _ => true
  | .obj _ => true
  | .builtin _ => true

/-- The operator `a || b`. -/
def jsOr (a b : JsVal) : JsVal :=
  if truthy a then a else b

/-- White space and line terminators stripped by `String.prototype.trim`. -/
def isJsWhitespace (c : Char) : Bool :=
  c.val.toNat ∈ [0x09, 0x0A, 0x0B, 0x0C, 0x0D, 0x20, 0xA0, 0x1680,
    0x2000, 0x2001, 0x2002, 0x2003, 0x2004, 0x2005, 0x2006, 0x2007, 0x2008, 0x2009, 0x200A,
    0x2028, 0x2029, 0x202F, 0x205F, 0x3000, 0xFEFF]

/-- The method `String.prototype.trim`: strips white space from both ends. -/
def jsTrim (s : String) : String :=
  ⟨((s.data.dropWhile isJsWhitespace).reverse.dropWhile isJsWhitespace).reverse⟩

/-- Own-property lookup in a property list. -/
def lookupProp (k : String) : List (String × JsVal) → Option JsVal
  | [] => none
  | (k', v) :: rest => if k' = k then some v else lookupProp k rest

/-- Decimal rendering of an integer, which is what `String(...)` makes of a number
that is an integer of magnitude below 2^53. -/
def numToString (n : Int) : String :=
  match n with
  | .ofNat m => toString m
  | .negSucc m => "-" ++ toString (m + 1)

/-- A native function as a property read returns it: `String(...)` renders it with
its name. -/
def nativeFunction (name : String) : JsVal :=
  .builtin ("function " ++ name ++ "() \x7b [native code] \x7d")

/-- The names of the methods of `Object.prototype`. -/
def objectMethods : List String :=
  ["__defineGetter__", "__defineSetter__", "hasOwnProperty", "__lookupGetter__",
   "__lookupSetter__", "isPrototypeOf", "propertyIsEnumerable", "toString", "valueOf",
   "toLocaleString"]

/-- The names of the methods of `Array.prototype`. -/
def arrayMethods : List String :=
  ["at", "concat", "copyWithin", "entries", "every", "fill", "filter", "find", "findIndex",
   "findLast", "findLastIndex", "flat", "flatMap", "forEach", "includes", "indexOf", "join",
   "keys", "lastIndexOf", "map", "pop", "push", "reduce", "reduceRight", "reverse", "shift",
   "slice", "some", "sort", "splice", "toLocaleString", "toReversed", "toSorted", "toSpliced",
   "toString", "unshift", "values", "with"]

/-- The member named `k` that a value inherits from a prototype with constructor
`ctor` and methods `methods` (and, behind it, `Object.prototype`): `constructor` is
the constructor function, `__proto__` the prototype object, which `String(...)`
renders as `protoRendering`. -/
def prototypeMember (ctor protoRendering : String) (methods : List String) (k : String) :
    Option JsVal :=
  if k = "constructor" then some (nativeFunction ctor)
  else if k = "__proto__" then some (.builtin protoRendering)
  else if k ∈ methods ∨ k ∈ objectMethods then some (nativeFunction k)
  else none

/-- The member named `k` of `Object.prototype`. -/
def objectPrototypeMember (k : String) : Option JsVal :=
  prototypeMember "Object" "[object Object]" [] k

/-- The member named `k` that an array inherits. -/
def arrayPrototypeMember (k : String) : Option JsVal :=
  prototypeMember "Array" "" arrayMethods k

/-- The read `o[k]`.  Reading a property of `undefined` or `null` throws a
TypeError.  Otherwise an own property wins (the properties of a parsed object, the
elements and `length` of an array or string), then the prototype is consulted; a
property found nowhere reads as `undefined`. -/
def getProp (o : JsVal) (k : String) : Except JsError JsVal :=
  match o with
  | .undefined => .error (.typeError "Cannot read properties of undefined")
  | .null => .error (.typeError "Cannot read properties of null")
  | .bool _ => .ok ((prototypeMember "Boolean" "false" [] k).getD .undefined)
  | .num _ => .ok ((prototypeMember "Number" "0" [] k).getD .undefined)
  | .str s =>
    if k = "length" then .ok (.num s.data.length)
    else match (List.range s.data.length).find? (fun i => toString i == k) with
      | some i => .ok (match s.data.get? i with
          | some c => .str (String.singleton c)
          | none => .undefined)
      | none => .ok ((prototypeMember "String" "" [] k).getD .undefined)
  | .arr items =>
    if k = "length" then .ok (.num items.length)
    else match (List.range items.length).find? (fun i => toString i == k) with
      | some i => .ok ((items.get? i).getD .undefined)
      | none => .ok ((arrayPrototypeMember k).getD .undefined)
  | .obj props =>
    match lookupProp k props with
    | some v => .ok v
    | none => .ok ((objectPrototypeMember k).getD .undefined)
  | .builtin _ => .ok ((objectPrototypeMember k).getD .undefined)

mutual
/-- The conversion `String(v)` (also used by template literals).  A parsed object
whose own property `toString` shadows the inherited method cannot be converted:
the own value is not callable and the inherited `valueOf` returns the object. -/
def toStr : JsVal → Except JsError String
  | .undefined => .ok "undefined"
  | .null => .ok "null"
  | .bool b => .ok (if b then "true" else "false")
  | .num n => .ok (numToString n)
  | .str s => .ok s
  | .arr items => joinItems items
  | .obj props =>
    match lookupProp "toString" props with
    | some _ => .error (.typeError "Cannot convert object to primitive value")
    | none => .ok "[object Object]"
  | .builtin rendering => .ok rendering
/-- The method `Array.prototype.join` with the default separator: `undefined` and
`null` elements are rendered as the empty string. -/
def joinItems : List JsVal → Except JsError String
  | [] => .ok ""
  | x :: rest =>
    let first : Except JsError String :=
      match x with
      | .undefined => .ok ""
      | .null => .ok ""
      | .bool b => toStr (.bool b)
      | .num n => toStr (.num n)
      | .str s => toStr (.str s)
      | .arr items => joinItems items
      | .obj props => toStr (.obj props)
      | .builtin rendering => toStr (.builtin rendering)
    match rest with
    | [] => first
    | _ :: _ =>
      match first with
      | .error e => .error e
      | .ok s =>
        match joinItems rest with
        | .error e => .error e
        | .ok t => .ok (s ++ "," ++ t)
end

/-- The call `v.trim()` on a truthy value: only strings have the method, on any
other value the member is missing or not callable and the call throws. -/
def callTrim : JsVal → Except JsError String
  | .str s => .ok (jsTrim s)
  | _ => .error (.typeError "trim is not a function")

/-! ## Process configuration -/

/-- The environment variables read by the server (`undefined` when unset). -/
structure Env where
  SMTP_HOST : Option String
  SMTP_PORT : Option String
  SMTP_USER : Option String
  SMTP_PASS : Option String
  SMTP_FROM : Option String
  TO_EMAIL : Option String

/-- The expression `process.env.X || dflt` for a string default. -/
def envOr (x : Option String) (dflt : String) : String :=
  match x with
  | some s => if s != "" then s else dflt
  | none => dflt

/-- The constant `TO_EMAIL` (line 33). -/
def TO_EMAIL (env : Env) : String :=
  envOr env.TO_EMAIL (envOr env.SMTP_USER "hello@breakingdevlab.example")

/-- The argument object of `transporter.sendMail`; `from_` and `to_` stand for
its properties `from` and `to`. -/
structure Mail where
  from_ : String
  to_ : String
  subject : String
  text : String
  deriving DecidableEq

/-- What `await transporter.sendMail(...)` meets: the promise resolves, it rejects
(or the call throws) with an error, or it never settles. -/
inductive SendResult where
  | resolved : SendResult
  | rejected (err : JsError) : SendResult
  | pending : SendResult
  deriving DecidableEq

/-- The mail transport collaborator. -/
structure Transport where
  sendMail : Mail → SendResult

/-- The JSON body of a response. -/
structure ResBody where
  ok : Bool
  message : String
  missing : Option (List String)
  deriving DecidableEq

/-- Observable effects of one request, in program order. -/
inductive Effect where
  | respond (status : Nat) (body : ResBody) : Effect
  | sendMail (mail : Mail) : Effect
  | consoleLog (label : String) (text : String) : Effect
  | consoleError (label : Option String) (err : JsError) : Effect
  deriving DecidableEq

/-- The per-route options passed to `handleForm`. -/
structure RouteConfig where
  required : List String
  honeypot : String
  subjectPrefix : String
  deriving DecidableEq

/-- The object `payload` built at lines 54-59. -/
structure Payload where
  name : JsVal
  contact : JsVal
  message : JsVal
  selected_service : JsVal

/-! ## The functions of `server.js` -/

/-- The callback of `required.forEach` in `validate` (line 38), with the array
`errors` passed explicitly. -/
def validateStep (fields : JsVal) (errors : List String) (k : String) :
    Except JsError (List String) :=
  match getProp fields k with
  | .error e => .error e
  | .ok v =>
    if !truthy v then .ok (errors ++ [k])
    else
      match toStr v with
      | .error e => .error e
      | .ok s => if jsTrim s = "" then .ok (errors ++ [k]) else .ok errors

/-- The function `validate(fields, required)` (lines 35-41). -/
def validate (fields : JsVal) (required : List String) : Except JsError (List String) :=
  required.foldlM (validateStep fields) []

/-- The condition of line 45:
`req.body[opts.honeypot] && req.body[opts.honeypot].trim() !== ''`. -/
def honeypotFilled (body : JsVal) (opts : RouteConfig) : Except JsError Bool :=
  match getProp body opts.honeypot with
  | .error e => .error e
  | .ok hp =>
    if truthy hp then
      match callTrim hp with
      | .error e => .error e
      | .ok t => .ok (t != "")
    else .ok false

/-- The object literal of lines 54-59. -/
def buildPayload (body : JsVal) : Except JsError Payload := do
  let name ← getProp body "name"
  let email ← getProp body "email"
  let contact ← getProp body "contact"
  let message ← getProp body "message"
  let project ← getProp body "project"
  let selected_service ← getProp body "selected_service"
  pure {
    name := jsOr name (.str "")
    contact := jsOr (jsOr email contact) (.str "")
    message := jsOr (jsOr message project) (.str "")
    selected_service := jsOr selected_service (.str "") }

/-- The string `subject` of line 61. -/
def composeSubject (opts : RouteConfig) (payload : Payload) : Except JsError String :=
  if truthy payload.selected_service then
    match toStr payload.selected_service with
    | .error e => .error e
    | .ok svc => .ok (opts.subjectPrefix ++ (" — " ++ svc))
  else .ok (opts.subjectPrefix ++ "")

/-- The string `text` of line 62. -/
def composeText (payload : Payload) : Except JsError String := do
  let name ← toStr payload.name
  let contact ← toStr payload.contact
  let service ← toStr payload.selected_service
  let message ← toStr payload.message
  pure ("New submission\n\nName: " ++ name ++ "\nContact: " ++ contact ++ "\nService: "
    ++ service ++ "\n\nMessage:\n" ++ message)

/-- The argument of `sendMail` at lines 66-71. -/
def composeMail (env : Env) (subject text : String) : Mail :=
  { from_ := "\"Breaking Dev Lab\" <" ++ envOr env.SMTP_FROM (TO_EMAIL env) ++ ">"
    to_ := TO_EMAIL env
    subject := subject
    text := text }

/-- The effects of the dispatch step of lines 64-78. -/
def dispatch (env : Env) (transporter : Option Transport) (subject text : String) :
    List Effect :=
  match transporter with
  | some t =>
    match t.sendMail (composeMail env subject text) with
    | .resolved => [.sendMail (composeMail env subject text)]
    | .rejected mailErr =>
      [.sendMail (composeMail env subject text), .consoleError (some "Mail send failed:") mailErr]
    | .pending => [.sendMail (composeMail env subject text)]
  | none => [.consoleLog "Email not sent (no SMTP configured). Payload:\n" text]

/-- Whether control leaves the dispatch step of lines 64-78 and reaches line 80:
it does not when the awaited promise never settles. -/
def dispatchReturns (env : Env) (transporter : Option Transport) (subject text : String) :
    Bool :=
  match transporter with
  | some t =>
    match t.sendMail (composeMail env subject text) with
    | .resolved => true
    | .rejected _ => true
    | .pending => false
  | none => true

/-- The body of the `try` block of `handleForm` (lines 45-80).  Every expression
that can throw is evaluated before the first effect; the response of line 80 is
written only if the dispatch step returns. -/
def handleFormTry (env : Env) (transporter : Option Transport) (body : JsVal)
    (opts : RouteConfig) : Except JsError (List Effect) :=
  match honeypotFilled body opts with
  | .error e => .error e
  | .ok true => .ok [.respond 400 { ok := false, message := "Spam detected", missing := none }]
  | .ok false =>
    match validate body opts.required with
    | .error e => .error e
    | .ok missing =>
      if missing.length != 0 then
        .ok [.respond 400 { ok := false, message := "Missing fields", missing := some missing }]
      else
        match buildPayload body with
        | .error e => .error e
        | .ok payload =>
          match composeSubject opts payload with
          | .error e => .error e
          | .ok subject =>
            match composeText payload with
            | .error e => .error e
            | .ok text =>
              .ok (dispatch env transporter subject text ++
                (if dispatchReturns env transporter subject text then
                  [.respond 200 { ok := true, message := "Received", missing := none }]
                else []))

/-- The function `handleForm(req, res, opts)` (lines 43-85), as the trace of its
effects for the request body `req.body`. -/
def handleForm (env : Env) (transporter : Option Transport) (body : JsVal)
    (opts : RouteConfig) : List Effect :=
  match handleFormTry env transporter body opts with
  | .ok trace => trace
  | .error err =>
    [.consoleError none err, .respond 500 { ok := false, message := "Server error", missing := none }]

/-- The options of the route `POST /api/lead` (lines 87-93). -/
def leadOpts : RouteConfig :=
  { required := ["name", "contact"], honeypot := "hp_inline", subjectPrefix := "Lead form" }

/-- The options of the route `POST /api/quote` (lines 95-101). -/
def quoteOpts : RouteConfig :=
  { required := ["name", "email"], honeypot := "hp_page", subjectPrefix := "Quote request" }

/-- The handler of `POST /api/lead`. -/
def apiLead (env : Env) (transporter : Option Transport) (body : JsVal) : List Effect :=
  handleForm env transporter body leadOpts

/-- The handler of `POST /api/quote`. -/
def apiQuote (env : Env) (transporter : Option Transport) (body : JsVal) : List Effect :=
  handleForm env transporter body quoteOpts

/-! ## Reading a trace -/

/-- The responses written during a request, as (status, body) pairs. -/
def responses : List Effect → List (Nat × ResBody)
  | [] => []
  | .respond status body :: rest => (status, body) :: responses rest
  | _ :: rest => responses rest

/-- The messages handed to `sendMail` during a request. -/
def sentMails : List Effect → List Mail
  | [] => []
  | .sendMail mail :: rest => mail :: sentMails rest
  | _ :: rest => sentMails rest

/-- The texts written with `console.log` during a request. -/
def loggedTexts : List Effect → List String
  | [] => []
  | .consoleLog _ text :: rest => text :: loggedTexts rest
  | _ :: rest => loggedTexts rest

/-! ## Request bodies made of string fields -/

/-- The value of field `k` in a list of string fields, if the field is there. -/
def fieldOf (k : String) : List (String × String) → Option String
  | [] => none
  | (k', s) :: rest => if k' = k then some s else fieldOf k rest

/-- The request body holding exactly the given string fields. -/
def ofFields (fs : List (String × String)) : JsVal :=
  .obj (fs.map (fun p => (p.1, JsVal.str p.2)))

/-- Spec wording: field `k` is absent, or present but blank after trimming. -/
def absentOrBlank (fs : List (String × String)) (k : String) : Bool :=
  match fieldOf k fs with
  | none => true
  | some s => jsTrim s = ""

/-- Spec wording: the value of field `k` if present and non-empty. -/
def nonEmptyField (fs : List (String × String)) (k : String) : Option String :=
  match fieldOf k fs with
  | some s => if s = "" then none else some s
  | none => none

/-- Spec wording: the first of the fields `keys` that is present and non-empty,
and the empty string when there is none. -/
def firstNonEmpty (fs : List (String × String)) : List String → String
  | [] => ""
  | k :: ks =>
    match nonEmptyField fs k with
    | some s => s
    | none => firstNonEmpty fs ks

/-- Whether `k` names a member that every object inherits from
`Object.prototype`. -/
def inheritedName (k : String) : Bool :=
  (objectPrototypeMember k).isSome

/-- What reading field `k` of the body `ofFields fs` yields. -/
def fieldVal (fs : List (String × String)) (k : String) : JsVal :=
  match fieldOf k fs with
  | some s => .str s
  | none => (objectPrototypeMember k).getD .undefined

/-- Whether line 38 reports the name `k` for the string fields `fs`: the field is
blank after trimming, or it is absent and `k` is not an inherited member. -/
def reportedMissing (fs : List (String × String)) (k : String) : Bool :=
  match fieldOf k fs with
  | some s => jsTrim s = ""
  | none => !inheritedName k

/-- The response written for a honeypot hit (line 46). -/
def spamResponse : Nat × ResBody :=
  (400, { ok := false, message := "Spam detected", missing := none })

/-- The response written for missing required fields (line 51). -/
def missingResponse (missing : List String) : Nat × ResBody :=
  (400, { ok := false, message := "Missing fields", missing := some missing })

/-- The response written for an accepted submission (line 80). -/
def receivedResponse : Nat × ResBody :=
  (200, { ok := true, message := "Received", missing := none })

/-- The response written by the `catch` block (line 83). -/
def serverErrorResponse : Nat × ResBody :=
  (500, { ok := false, message := "Server error", missing := none })

/-- Spec wording: the subject is the route's subject prefix, with the service
appended after an em dash only if the service is non-empty. -/
def expectedSubject (pre svc : String) : String :=
  if svc = "" then pre else pre ++ " — " ++ svc

/-- Spec wording: the fixed-format block with the labelled sections Name,
Contact, Service and Message. -/
def expectedText (name contact svc message : String) : String :=
  "New submission\n\nName: " ++ name ++ "\nContact: " ++ contact ++ "\nService: " ++ svc
    ++ "\n\nMessage:\n" ++ message

/-- A transport whose `sendMail` always resolves. -/
def okTransport : Transport :=
  { sendMail := fun _ => .resolved }

/-- A transport whose `sendMail` always rejects. -/
def failingTransport : Transport :=
  { sendMail := fun _ => .rejected (.mailError "ECONNREFUSED") }

/-- A transport whose `sendMail` never settles. -/
def hangingTransport : Transport :=
  { sendMail := fun _ => .pending }

/-- Every `sendMail` call of the transport, if there is one, settles. -/
def settles (transporter : Option Transport) : Prop :=
  ∀ t, transporter = some t → ∀ mail, t.sendMail mail ≠ .pending

/-- An environment with no variable set. -/
def emptyEnv : Env :=
  { SMTP_HOST := none, SMTP_PORT := none, SMTP_USER := none, SMTP_PASS := none,
    SMTP_FROM := none, TO_EMAIL := none }

/-! ## Transport construction -/

/-- The property `auth` of the options given to `nodemailer.createTransport`. -/
structure Auth where
  user : String
  pass : String
  deriving DecidableEq

/-- The options object given to `nodemailer.createTransport` (lines 24-29).  The
port is the result of `Number(port)`: `some n` when that number is the integer
`n`, `none` when it is not an integer (NaN, an infinity, a fraction). -/
structure TransportOptions where
  host : String
  port : Option Int
  secure : Bool
  auth : Auth
  deriving DecidableEq

/-- The function `createTransporter()` (lines 18-30).  The built-in conversion
`Number` (as a map from strings to integer-valued numbers, `none` otherwise) and
the library function `nodemailer.createTransport` are parameters. -/
def createTransporter (Number : String → Option Int)
    (createTransport : TransportOptions → Transport) (env : Env) : Option Transport :=
  match env.SMTP_HOST, env.SMTP_PORT, env.SMTP_USER, env.SMTP_PASS with
  | some host, some port, some user, some pass =>
    if host = "" ∨ port = "" ∨ user = "" ∨ pass = "" then none
    else some (createTransport
      { host := host
        port := Number port
        secure := decide (Number port = some 465)
        auth := { user := user, pass := pass } })
  | _, _, _, _ => none

/-- The request handler of a route as the server runs it: `handleForm` with the
module-level constant `transporter = createTransporter()` (line 32). -/
def serveForm (Number : String → Option Int) (createTransport : TransportOptions → Transport)
    (env : Env) (body : JsVal) (opts : RouteConfig) : List Effect :=
  handleForm env (createTransporter Number createTransport env) body opts

/-- Spec wording: the value of an environment variable that is set and
non-empty. -/
def setNonEmpty (x : Option String) : Option String :=
  match x with
  | some s => if s = "" then none else some s
  | none => none

/-- Spec wording: the recipient is `TO_EMAIL` when set and non-empty, otherwise
`SMTP_USER` when set and non-empty, otherwise the hardcoded address. -/
def recipientSpec (env : Env) : String :=
  match setNonEmpty env.TO_EMAIL with
  | some a => a
  | none =>
    match setNonEmpty env.SMTP_USER with
    | some a => a
    | none => "hello@breakingdevlab.example"

/-- Spec wording: the from header names `SMTP_FROM` when set and non-empty and
otherwise the recipient address. -/
def fromHeaderSpec (env : Env) : String :=
  "\"Breaking Dev Lab\" <" ++
    (match setNonEmpty env.SMTP_FROM with
      | some a => a
      | none => recipientSpec env) ++ ">"

/-- A full SMTP configuration on port 465, without `TO_EMAIL` and `SMTP_FROM`. -/
def smtpEnv : Env :=
  { SMTP_HOST := some "smtp.x.com", SMTP_PORT := some "465", SMTP_USER := some "ops@x.com",
    SMTP_PASS := some "secret", SMTP_FROM := none, TO_EMAIL := none }

/-- A stand-in for `Number` used to evaluate examples: exact on strings of one to
fifteen decimal digits, `none` elsewhere. -/
def digitsNumber (s : String) : Option Int :=
  if s.data ≠ [] ∧ s.data.length ≤ 15 ∧ s.data.all (fun c => decide ('0' ≤ c ∧ c ≤ '9')) then
    some (Int.ofNat (s.data.foldl (fun n c => 10 * n + (c.toNat - '0'.toNat)) 0))
  else none

/-- A `createTransport` whose transports accept every message. -/
def acceptingTransport (_ : TransportOptions) : Transport :=
  okTransport

/-! ## Substrings -/

/-- Whether the characters `w` are the first characters of `s`. -/
def startsWith : List Char → List Char → Bool
  | [], _ => true
  | _ :: _, [] => false
  | a :: w, x :: s => decide (a = x) && startsWith w s

/-- Whether the characters `w` occur consecutively somewhere in `s`. -/
def occursIn (w : List Char) : List Char → Bool
  | [] => startsWith w []
  | x :: s => startsWith w (x :: s) || occursIn w s

/-- Whether the string `s` contains the substring `w`. -/
def hasSubstr (s w : String) : Bool :=
  occursIn w.data s.data

/-- Field `k` of `fields` holds a truthy value whose string conversion is
non-blank after trimming: the condition under which `validate` does not report
`k` (line 38). -/
def nonBlankField (fields : JsVal) (k : String) : Prop :=
  ∃ v s, getProp fields k = .ok v ∧ truthy v = true ∧ toStr v = .ok s ∧ jsTrim s ≠ ""

/-! ## Values that `String(...)` can convert -/

mutual
/-- Whether `String(v)` completes: it does unless `v` is an object with an own
property `toString`, or an array that has such an object among its elements
(at any depth of nested arrays). -/
def convertible : JsVal → Bool
  | .undefined => true
  | .null => true
  | .bool _ => true
  | .num _ => true
  | .str _ => true
  | .arr items => allConvertible items
  | .obj props => (lookupProp "toString" props).isNone
  | .builtin _ => true
/-- Whether every element of an array can be rendered by `join`. -/
def allConvertible : List JsVal → Bool
  | [] => true
  | x :: rest =>
    let first : Bool :=
      match x with
      | .undefined => true
      | .null => true
      | .bool _ => true
      | .num _ => true
      | .str _ => true
      | .arr items => allConvertible items
      | .obj props => convertible (.obj props)
      | .builtin _ => true
    match first with
    | false => false
    | true => allConvertible rest
end

/-! ## Evaluation lemmas -/

theorem jsTrim_empty : jsTrim "" = "" := by decide

theorem ne_empty_of_jsTrim_ne_empty {s : String} (h : jsTrim s ≠ "") : s ≠ "" := by
  intro hs
  subst hs
  exact h jsTrim_empty

theorem lookupProp_ofFields (k : String) (fs : List (String × String)) :
    lookupProp k (fs.map (fun p => (p.1, JsVal.str p.2))) = (fieldOf k fs).map JsVal.str := by
  induction fs with
  | nil => rfl
  | cons p rest ih =>
    obtain ⟨k', s⟩ := p
    simp only [List.map, lookupProp, fieldOf]
    split
    · rfl
    · exact ih

/-- Reading a field of a body of string fields never throws. -/
theorem getProp_ofFields (fs : List (String × String)) (k : String) :
    getProp (ofFields fs) k = .ok (fieldVal fs k) := by
  simp only [getProp, ofFields, lookupProp_ofFields, fieldVal]
  cases fieldOf k fs <;> rfl

theorem objectPrototypeMember_name {k : String} {v : JsVal}
    (h : objectPrototypeMember k = some v) :
    k ∈ "constructor" :: "__proto__" :: objectMethods := by
  unfold objectPrototypeMember prototypeMember at h
  by_cases h₁ : k = "constructor"
  · simp [h₁]
  · by_cases h₂ : k = "__proto__"
    · simp [h₂]
    · by_cases h₃ : k ∈ objectMethods
      · exact List.mem_cons_of_mem _ (List.mem_cons_of_mem _ h₃)
      · simp [h₁, h₂, h₃] at h

theorem objectPrototypeMember_check :
    ∀ k ∈ "constructor" :: "__proto__" :: objectMethods,
      (match objectPrototypeMember k with
        | some (.builtin r) => decide (jsTrim r ≠ "")
        | _ => false) = true := by
  decide

/-- Every member of `Object.prototype` is a built-in whose string conversion is
not blank. -/
theorem objectPrototypeMember_builtin {k : String} {v : JsVal}
    (h : objectPrototypeMember k = some v) : ∃ r, v = .builtin r ∧ jsTrim r ≠ "" := by
  have hc := objectPrototypeMember_check k (objectPrototypeMember_name h)
  rw [h] at hc
  cases v with
  | builtin r => exact ⟨r, rfl, by simpa using hc⟩
  | undefined => simp at hc
  | null => simp at hc
  | bool b => simp at hc
  | num n => simp at hc
  | str s => simp at hc
  | arr items => simp at hc
  | obj props => simp at hc

theorem fieldVal_of_not_inherited (fs : List (String × String)) {k : String}
    (hk : inheritedName k = false) :
    fieldVal fs k
      = (match fieldOf k fs with
        | some s => .str s
        | none => .undefined) := by
  unfold inheritedName at hk
  cases hf : fieldOf k fs with
  | some s => simp [fieldVal, hf]
  | none =>
    cases hm : objectPrototypeMember k with
    | none => simp [fieldVal, hf, hm]
    | some v => simp [hm] at hk

theorem validateStep_ofFields (fs : List (String × String)) (errors : List String) (k : String) :
    validateStep (ofFields fs) errors k
      = .ok (if reportedMissing fs k then errors ++ [k] else errors) := by
  cases h : fieldOf k fs with
  | none =>
    cases hm : objectPrototypeMember k with
    | none =>
      simp [validateStep, getProp_ofFields, fieldVal, reportedMissing, inheritedName, h, hm,
        truthy]
    | some v =>
      obtain ⟨r, hv, hr⟩ := objectPrototypeMember_builtin hm
      subst hv
      simp [validateStep, getProp_ofFields, fieldVal, reportedMissing, inheritedName, h, hm,
        truthy, toStr, hr]
  | some s =>
    by_cases hs : s = ""
    · subst hs
      simp [validateStep, getProp_ofFields, fieldVal, reportedMissing, h, truthy, jsTrim_empty]
    · by_cases ht : jsTrim s = "" <;>
        simp [validateStep, getProp_ofFields, fieldVal, reportedMissing, h, truthy, toStr, hs, ht]

theorem foldlM_validateStep_ofFields (fs : List (String × String)) (required : List String) :
    ∀ errors : List String,
      required.foldlM (validateStep (ofFields fs)) errors
        = .ok (errors ++ required.filter (reportedMissing fs)) := by
  induction required with
  | nil => intro errors; simp [List.foldlM, pure, Except.pure]
  | cons k rest ih =>
    intro errors
    simp only [List.foldlM, validateStep_ofFields, bind, Except.bind, ih, List.filter]
    cases reportedMissing fs k <;> simp

/-- On string fields `validate` is the filter of `required` by `reportedMissing`. -/
theorem validate_ofFields (fs : List (String × String)) (required : List String) :
    validate (ofFields fs) required = .ok (required.filter (reportedMissing fs)) := by
  simp [validate, foldlM_validateStep_ofFields]

theorem reportedMissing_of_not_inherited (fs : List (String × String)) {k : String}
    (hk : inheritedName k = false) : reportedMissing fs k = absentOrBlank fs k := by
  cases hf : fieldOf k fs <;> simp [reportedMissing, absentOrBlank, hf, hk]

theorem filter_reportedMissing (fs : List (String × String)) {required : List String}
    (hreq : ∀ k ∈ required, inheritedName k = false) :
    required.filter (reportedMissing fs) = required.filter (absentOrBlank fs) := by
  induction required with
  | nil => rfl
  | cons k rest ih =>
    have hk := reportedMissing_of_not_inherited fs (hreq k (List.mem_cons_self k rest))
    have hrest := ih (fun k' hk' => hreq k' (List.mem_cons_of_mem k hk'))
    simp only [List.filter, hk, hrest]

/-- On string fields and names that are not inherited, `validate` is the filter
of `required` by `absentOrBlank`. -/
theorem validate_ofFields_spec (fs : List (String × String)) {required : List String}
    (hreq : ∀ k ∈ required, inheritedName k = false) :
    validate (ofFields fs) required = .ok (required.filter (absentOrBlank fs)) := by
  rw [validate_ofFields, filter_reportedMissing fs hreq]

theorem honeypotFilled_ofFields (fs : List (String × String)) (opts : RouteConfig)
    (hhp : inheritedName opts.honeypot = false) :
    honeypotFilled (ofFields fs) opts = .ok (!absentOrBlank fs opts.honeypot) := by
  have hv := fieldVal_of_not_inherited fs hhp
  cases h : fieldOf opts.honeypot fs with
  | none => simp [honeypotFilled, getProp_ofFields, hv, absentOrBlank, h, truthy]
  | some s =>
    by_cases hs : s = ""
    · subst hs
      simp [honeypotFilled, getProp_ofFields, hv, absentOrBlank, h, truthy, jsTrim_empty]
    · by_cases ht : jsTrim s = "" <;>
        simp [honeypotFilled, getProp_ofFields, hv, absentOrBlank, h, truthy, callTrim, hs, ht]

theorem honeypotFilled_of_str {body : JsVal} {opts : RouteConfig} {s : String}
    (h : getProp body opts.honeypot = .ok (.str s)) (hne : jsTrim s ≠ "") :
    honeypotFilled body opts = .ok true := by
  have hs : s ≠ "" := ne_empty_of_jsTrim_ne_empty hne
  simp [honeypotFilled, h, truthy, callTrim, hs, hne]

theorem jsOr_fieldVal (fs : List (String × String)) {k : String} (hk : inheritedName k = false)
    (d : JsVal) :
    jsOr (fieldVal fs k) d
      = (match nonEmptyField fs k with
        | some s => .str s
        | none => d) := by
  rw [fieldVal_of_not_inherited fs hk]
  cases h : fieldOf k fs with
  | none => simp [jsOr, nonEmptyField, h, truthy]
  | some s =>
    by_cases hs : s = "" <;> simp [jsOr, nonEmptyField, h, truthy, hs]

theorem ne_empty_of_nonEmptyField {fs : List (String × String)} {k s : String}
    (h : nonEmptyField fs k = some s) : s ≠ "" := by
  unfold nonEmptyField at h
  cases hf : fieldOf k fs with
  | none => simp [hf] at h
  | some t =>
    by_cases ht : t = ""
    · simp [hf, ht] at h
    · simp [hf, ht] at h
      exact h ▸ ht

theorem jsOr_fieldVal_one (fs : List (String × String)) {k : String}
    (hk : inheritedName k = false) :
    jsOr (fieldVal fs k) (.str "") = .str (firstNonEmpty fs [k]) := by
  rw [jsOr_fieldVal fs hk]
  cases h : nonEmptyField fs k <;> simp [firstNonEmpty, h]

theorem jsOr_fieldVal_two (fs : List (String × String)) {k₁ k₂ : String}
    (hk₁ : inheritedName k₁ = false) (hk₂ : inheritedName k₂ = false) :
    jsOr (jsOr (fieldVal fs k₁) (fieldVal fs k₂)) (.str "")
      = .str (firstNonEmpty fs [k₁, k₂]) := by
  rw [jsOr_fieldVal fs hk₁]
  cases h₁ : nonEmptyField fs k₁ with
  | none =>
    simp only [firstNonEmpty, h₁]
    rw [jsOr_fieldVal fs hk₂]
    cases h₂ : nonEmptyField fs k₂ <;> simp
  | some s =>
    have hs : s ≠ "" := ne_empty_of_nonEmptyField h₁
    simp [firstNonEmpty, h₁, jsOr, truthy, hs]

/-- The payload of a body of string fields, in the words of the spec. -/
theorem buildPayload_ofFields (fs : List (String × String)) :
    buildPayload (ofFields fs)
      = .ok { name := .str (firstNonEmpty fs ["name"])
              contact := .str (firstNonEmpty fs ["email", "contact"])
              message := .str (firstNonEmpty fs ["message", "project"])
              selected_service := .str (firstNonEmpty fs ["selected_service"]) } := by
  have h₁ : inheritedName "name" = false := by decide
  have h₂ : inheritedName "email" = false := by decide
  have h₃ : inheritedName "contact" = false := by decide
  have h₄ : inheritedName "message" = false := by decide
  have h₅ : inheritedName "project" = false := by decide
  have h₆ : inheritedName "selected_service" = false := by decide
  simp only [buildPayload, getProp_ofFields, bind, Except.bind, pure, Except.pure,
    jsOr_fieldVal_one fs h₁, jsOr_fieldVal_one fs h₆, jsOr_fieldVal_two fs h₂ h₃,
    jsOr_fieldVal_two fs h₄ h₅]

/-- The subject line in the words of the spec. -/
theorem composeSubject_str (opts : RouteConfig) (name contact message : JsVal) (svc : String) :
    composeSubject opts { name := name, contact := contact, message := message,
                          selected_service := .str svc }
      = .ok (if svc = "" then opts.subjectPrefix else opts.subjectPrefix ++ " — " ++ svc) := by
  by_cases h : svc = ""
  · subst h
    simp [composeSubject, truthy]
  · simp [composeSubject, truthy, toStr, h, String.append_assoc]

theorem composeText_str (name contact message svc : String) :
    composeText { name := .str name, contact := .str contact, message := .str message,
                  selected_service := .str svc }
      = .ok ("New submission\n\nName: " ++ name ++ "\nContact: " ++ contact ++ "\nService: "
          ++ svc ++ "\n\nMessage:\n" ++ message) := by
  simp [composeText, toStr, bind, Except.bind, pure, Except.pure]

/-! ## The shape of a run of `handleForm` -/

theorem responses_append (xs ys : List Effect) :
    responses (xs ++ ys) = responses xs ++ responses ys := by
  induction xs with
  | nil => rfl
  | cons x rest ih => cases x <;> simp [responses, ih]

theorem sentMails_append (xs ys : List Effect) :
    sentMails (xs ++ ys) = sentMails xs ++ sentMails ys := by
  induction xs with
  | nil => rfl
  | cons x rest ih => cases x <;> simp [sentMails, ih]

theorem loggedTexts_append (xs ys : List Effect) :
    loggedTexts (xs ++ ys) = loggedTexts xs ++ loggedTexts ys := by
  induction xs with
  | nil => rfl
  | cons x rest ih => cases x <;> simp [loggedTexts, ih]

theorem responses_dispatch (env : Env) (transporter : Option Transport) (subject text : String) :
    responses (dispatch env transporter subject text) = [] := by
  cases transporter with
  | none => rfl
  | some t =>
    cases h : t.sendMail (composeMail env subject text) <;> simp [dispatch, h, responses]

theorem sentMails_dispatch_some (env : Env) (t : Transport) (subject text : String) :
    sentMails (dispatch env (some t) subject text) = [composeMail env subject text] := by
  cases h : t.sendMail (composeMail env subject text) <;> simp [dispatch, h, sentMails]

theorem loggedTexts_dispatch_some (env : Env) (t : Transport) (subject text : String) :
    loggedTexts (dispatch env (some t) subject text) = [] := by
  cases h : t.sendMail (composeMail env subject text) <;> simp [dispatch, h, loggedTexts]

theorem dispatchReturns_of_settles {transporter : Option Transport} (h : settles transporter)
    (env : Env) (subject text : String) :
    dispatchReturns env transporter subject text = true := by
  cases transporter with
  | none => rfl
  | some t =>
    have ht := h t rfl (composeMail env subject text)
    cases hs : t.sendMail (composeMail env subject text) with
    | resolved => simp [dispatchReturns, hs]
    | rejected e => simp [dispatchReturns, hs]
    | pending => exact absurd hs ht

theorem accepted_effects_responses (env : Env) (transporter : Option Transport)
    (subject text : String) :
    responses (dispatch env transporter subject text ++
        (if dispatchReturns env transporter subject text then
          [.respond 200 { ok := true, message := "Received", missing := none }]
        else []))
      = if dispatchReturns env transporter subject text then
          [(200, { ok := true, message := "Received", missing := none })]
        else [] := by
  rw [responses_append, responses_dispatch]
  cases dispatchReturns env transporter subject text <;> simp [responses]

/-- Every run of `handleForm` takes one of four paths: the `catch` block, the
spam rejection, the missing-fields rejection, or dispatch followed, when the
dispatch step returns, by acceptance. -/
theorem handleForm_cases (env : Env) (transporter : Option Transport) (body : JsVal)
    (opts : RouteConfig) :
    (∃ e, handleFormTry env transporter body opts = .error e ∧
      handleForm env transporter body opts
        = [.consoleError none e, .respond serverErrorResponse.1 serverErrorResponse.2]) ∨
    (honeypotFilled body opts = .ok true ∧
      handleForm env transporter body opts = [.respond spamResponse.1 spamResponse.2]) ∨
    (∃ missing, honeypotFilled body opts = .ok false ∧
      validate body opts.required = .ok missing ∧ missing ≠ [] ∧
      handleForm env transporter body opts
        = [.respond (missingResponse missing).1 (missingResponse missing).2]) ∨
    (∃ payload subject text, honeypotFilled body opts = .ok false ∧
      validate body opts.required = .ok [] ∧ buildPayload body = .ok payload ∧
      composeSubject opts payload = .ok subject ∧ composeText payload = .ok text ∧
      handleForm env transporter body opts
        = dispatch env transporter subject text ++
            (if dispatchReturns env transporter subject text then
              [.respond 200 { ok := true, message := "Received", missing := none }]
            else [])) := by
  cases h₁ : honeypotFilled body opts with
  | error e => exact Or.inl ⟨e, by simp [handleFormTry, h₁], by simp [handleForm, handleFormTry, h₁, serverErrorResponse]⟩
  | ok spam =>
    cases spam with
    | true => exact Or.inr (Or.inl ⟨rfl, by simp [handleForm, handleFormTry, h₁, spamResponse]⟩)
    | false =>
      cases h₂ : validate body opts.required with
      | error e => exact Or.inl ⟨e, by simp [handleFormTry, h₁, h₂], by simp [handleForm, handleFormTry, h₁, h₂, serverErrorResponse]⟩
      | ok missing =>
        cases missing with
        | cons k rest =>
          exact Or.inr (Or.inr (Or.inl ⟨k :: rest, rfl, rfl, by simp,
            by simp [handleForm, handleFormTry, h₁, h₂, missingResponse]⟩))
        | nil =>
          cases h₃ : buildPayload body with
          | error e => exact Or.inl ⟨e, by simp [handleFormTry, h₁, h₂, h₃], by simp [handleForm, handleFormTry, h₁, h₂, h₃, serverErrorResponse]⟩
          | ok payload =>
            cases h₄ : composeSubject opts payload with
            | error e => exact Or.inl ⟨e, by simp [handleFormTry, h₁, h₂, h₃, h₄], by simp [handleForm, handleFormTry, h₁, h₂, h₃, h₄, serverErrorResponse]⟩
            | ok subject =>
              cases h₅ : composeText payload with
              | error e => exact Or.inl ⟨e, by simp [handleFormTry, h₁, h₂, h₃, h₄, h₅], by simp [handleForm, handleFormTry, h₁, h₂, h₃, h₄, h₅, serverErrorResponse]⟩
              | ok text =>
                exact Or.inr (Or.inr (Or.inr ⟨payload, subject, text, rfl, rfl, rfl, h₄, h₅,
                  by simp [handleForm, handleFormTry, h₁, h₂, h₃, h₄, h₅]⟩))

/-- A run that writes a 200 response went through dispatch, and the dispatch
step returned. -/
theorem handleForm_accepted {env : Env} {transporter : Option Transport} {body : JsVal}
    {opts : RouteConfig}
    (hacc : ∃ b, (200, b) ∈ responses (handleForm env transporter body opts)) :
    ∃ payload subject text, honeypotFilled body opts = .ok false ∧
      validate body opts.required = .ok [] ∧ buildPayload body = .ok payload ∧
      composeSubject opts payload = .ok subject ∧ composeText payload = .ok text ∧
      dispatchReturns env transporter subject text = true ∧
      handleForm env transporter body opts
        = dispatch env transporter subject text ++
            [.respond 200 { ok := true, message := "Received", missing := none }] := by
  obtain ⟨b, hb⟩ := hacc
  rcases handleForm_cases env transporter body opts with
    ⟨e, _, hrun⟩ | ⟨_, hrun⟩ | ⟨missing, _, _, _, hrun⟩ |
    ⟨payload, subject, text, h₁, h₂, h₃, h₄, h₅, hrun⟩
  · rw [hrun] at hb
    simp [responses, serverErrorResponse] at hb
  · rw [hrun] at hb
    simp [responses, spamResponse] at hb
  · rw [hrun] at hb
    simp [responses, missingResponse] at hb
  · cases hret : dispatchReturns env transporter subject text with
    | false =>
      rw [hrun, accepted_effects_responses, hret] at hb
      simp at hb
    | true =>
      refine ⟨payload, subject, text, h₁, h₂, h₃, h₄, h₅, hret, ?_⟩
      rw [hrun, hret]
      rfl

/-- The trace of `handleForm` on a body of string fields, for a route whose
field names are not inherited members. -/
theorem handleForm_ofFields (env : Env) (transporter : Option Transport)
    (fs : List (String × String)) (opts : RouteConfig)
    (hhp : inheritedName opts.honeypot = false)
    (hreq : ∀ k ∈ opts.required, inheritedName k = false) :
    handleForm env transporter (ofFields fs) opts
      = if absentOrBlank fs opts.honeypot = true then
          if opts.required.filter (absentOrBlank fs) = [] then
            dispatch env transporter
                (expectedSubject opts.subjectPrefix (firstNonEmpty fs ["selected_service"]))
                (expectedText (firstNonEmpty fs ["name"]) (firstNonEmpty fs ["email", "contact"])
                  (firstNonEmpty fs ["selected_service"]) (firstNonEmpty fs ["message", "project"]))
              ++ (if dispatchReturns env transporter
                    (expectedSubject opts.subjectPrefix (firstNonEmpty fs ["selected_service"]))
                    (expectedText (firstNonEmpty fs ["name"])
                      (firstNonEmpty fs ["email", "contact"])
                      (firstNonEmpty fs ["selected_service"])
                      (firstNonEmpty fs ["message", "project"])) then
                  [.respond 200 { ok := true, message := "Received", missing := none }]
                else [])
          else
            [.respond 400 { ok := false, message := "Missing fields",
                            missing := some (opts.required.filter (absentOrBlank fs)) }]
        else [.respond 400 { ok := false, message := "Spam detected", missing := none }] := by
  cases hhpv : absentOrBlank fs opts.honeypot with
  | false => simp [handleForm, handleFormTry, honeypotFilled_ofFields fs opts hhp, hhpv]
  | true =>
    cases hm : opts.required.filter (absentOrBlank fs) with
    | cons k rest =>
      simp [handleForm, handleFormTry, honeypotFilled_ofFields fs opts hhp, hhpv,
        validate_ofFields_spec fs hreq, hm]
    | nil =>
      simp [handleForm, handleFormTry, honeypotFilled_ofFields fs opts hhp, hhpv,
        validate_ofFields_spec fs hreq, hm, buildPayload_ofFields, composeSubject_str,
        composeText_str, expectedSubject, expectedText]

/-- An accepted run on string fields is the dispatch of the composed message
followed by the response. -/
theorem handleForm_ofFields_accepted {env : Env} {transporter : Option Transport}
    {fs : List (String × String)} {opts : RouteConfig}
    (hacc : responses (handleForm env transporter (ofFields fs) opts)
      = [(200, { ok := true, message := "Received", missing := none })]) :
    handleForm env transporter (ofFields fs) opts
      = dispatch env transporter
            (expectedSubject opts.subjectPrefix (firstNonEmpty fs ["selected_service"]))
            (expectedText (firstNonEmpty fs ["name"]) (firstNonEmpty fs ["email", "contact"])
              (firstNonEmpty fs ["selected_service"]) (firstNonEmpty fs ["message", "project"]))
          ++ [.respond 200 { ok := true, message := "Received", missing := none }] := by
  have hmem : ∃ b, (200, b) ∈ responses (handleForm env transporter (ofFields fs) opts) :=
    ⟨_, by rw [hacc]; exact List.mem_singleton.mpr rfl⟩
  obtain ⟨payload, subject, text, _, _, hp, hs, ht, _, hrun⟩ := handleForm_accepted hmem
  rw [buildPayload_ofFields] at hp
  cases hp
  rw [composeSubject_str] at hs
  rw [composeText_str] at ht
  cases hs
  cases ht
  rw [hrun]
  rfl

/-! ## Honeypot rejection -/

/-- C1: whenever the honeypot field of the request body is a string that is
non-empty after trimming, the only response of `handleForm` is HTTP 400 with body
`{ok: false, message: "Spam detected"}` and no `missing` key, for every route
config, every transport and whatever the other fields hold. -/
theorem handleForm_spam_detected (env : Env) (transporter : Option Transport) (body : JsVal)
    (opts : RouteConfig) (s : String)
    (hhp : getProp body opts.honeypot = .ok (.str s)) (hne : jsTrim s ≠ "") :
    responses (handleForm env transporter body opts)
      = [(400, { ok := false, message := "Spam detected", missing := none })] := by
  have h := honeypotFilled_of_str hhp hne
  simp [handleForm, handleFormTry, h, responses]

/-- Witness for C1: a quote request without any required field, with a numeric
`name` and a filled honeypot. -/
theorem handleForm_spam_detected_witness :
    getProp (.obj [("name", .num 7), ("hp_page", .str " filled ")]) quoteOpts.honeypot
        = .ok (.str " filled ") ∧
      jsTrim " filled " ≠ "" ∧
      responses (handleForm emptyEnv (some okTransport)
          (.obj [("name", .num 7), ("hp_page", .str " filled ")]) quoteOpts)
        = [(400, { ok := false, message := "Spam detected", missing := none })] :=
  ⟨rfl, by decide,
    handleForm_spam_detected emptyEnv (some okTransport)
      (.obj [("name", .num 7), ("hp_page", .str " filled ")]) quoteOpts " filled " rfl
      (by decide)⟩

theorem settles_none : settles none := by
  intro t ht
  cases ht

theorem settles_okTransport : settles (some okTransport) := by
  intro t ht mail
  cases ht
  simp [okTransport]

theorem settles_failingTransport : settles (some failingTransport) := by
  intro t ht mail
  cases ht
  simp [failingTransport]

/-- The trace of `handleForm` on a body of string fields, for a route whose
honeypot name is not an inherited member. -/
theorem handleForm_ofFields_reported (env : Env) (transporter : Option Transport)
    (fs : List (String × String)) (opts : RouteConfig)
    (hhp : inheritedName opts.honeypot = false) :
    handleForm env transporter (ofFields fs) opts
      = if absentOrBlank fs opts.honeypot = true then
          if opts.required.filter (reportedMissing fs) = [] then
            dispatch env transporter
                (expectedSubject opts.subjectPrefix (firstNonEmpty fs ["selected_service"]))
                (expectedText (firstNonEmpty fs ["name"]) (firstNonEmpty fs ["email", "contact"])
                  (firstNonEmpty fs ["selected_service"]) (firstNonEmpty fs ["message", "project"]))
              ++ (if dispatchReturns env transporter
                    (expectedSubject opts.subjectPrefix (firstNonEmpty fs ["selected_service"]))
                    (expectedText (firstNonEmpty fs ["name"])
                      (firstNonEmpty fs ["email", "contact"])
                      (firstNonEmpty fs ["selected_service"])
                      (firstNonEmpty fs ["message", "project"])) then
                  [.respond 200 { ok := true, message := "Received", missing := none }]
                else [])
          else
            [.respond 400 { ok := false, message := "Missing fields",
                            missing := some (opts.required.filter (reportedMissing fs)) }]
        else [.respond 400 { ok := false, message := "Spam detected", missing := none }] := by
  cases hhpv : absentOrBlank fs opts.honeypot with
  | false => simp [handleForm, handleFormTry, honeypotFilled_ofFields fs opts hhp, hhpv]
  | true =>
    cases hm : opts.required.filter (reportedMissing fs) with
    | cons k rest =>
      simp [handleForm, handleFormTry, honeypotFilled_ofFields fs opts hhp, hhpv,
        validate_ofFields, hm]
    | nil =>
      simp [handleForm, handleFormTry, honeypotFilled_ofFields fs opts hhp, hhpv,
        validate_ofFields, hm, buildPayload_ofFields, composeSubject_str,
        composeText_str, expectedSubject, expectedText]

/-! ## Accepted submissions -/

/-- C2, as stated, fails for a route config whose honeypot is named like a member
that objects inherit: the absent field `toString` reads as the inherited
function, `.trim()` throws on it, and the valid quote is answered with HTTP 500. -/
theorem valid_received_counterexample :
    absentOrBlank [("name", "A"), ("email", "e")] "toString" = true ∧
      (∀ k ∈ ["name", "email"], absentOrBlank [("name", "A"), ("email", "e")] k = false) ∧
      responses (handleForm emptyEnv none (ofFields [("name", "A"), ("email", "e")])
          { required := ["name", "email"], honeypot := "toString",
            subjectPrefix := "Quote request" })
        = [(500, { ok := false, message := "Server error", missing := none })] := by
  decide

/-- C2, amended: for a route config whose honeypot name is not the name of a
member inherited from `Object.prototype` (so for both routes of the server) and a
body of string fields whose honeypot is absent or blank and whose required
fields are all present and non-blank, the only response is HTTP 200
`{ok: true, message: "Received"}`: without a transport, with a transport whose
`sendMail` resolves, and with a transport whose `sendMail` throws or rejects. -/
theorem handleForm_valid_received (env : Env) (transporter : Option Transport)
    (fs : List (String × String)) (opts : RouteConfig)
    (hname : inheritedName opts.honeypot = false)
    (hhp : absentOrBlank fs opts.honeypot = true)
    (hreq : ∀ k ∈ opts.required, absentOrBlank fs k = false)
    (hsettle : settles transporter) :
    responses (handleForm env transporter (ofFields fs) opts)
        = [(200, { ok := true, message := "Received", missing := none })] ∧
      inheritedName leadOpts.honeypot = false ∧ inheritedName quoteOpts.honeypot = false := by
  have hm : opts.required.filter (reportedMissing fs) = [] := by
    rw [List.filter_eq_nil_iff]
    intro k hk
    have ha := hreq k hk
    unfold absentOrBlank at ha
    unfold reportedMissing
    cases hf : fieldOf k fs with
    | none => simp [hf] at ha
    | some s => simpa [hf] using ha
  refine ⟨?_, by decide, by decide⟩
  rw [handleForm_ofFields_reported env transporter fs opts hname]
  simp only [hhp, hm, if_true]
  rw [accepted_effects_responses, dispatchReturns_of_settles hsettle]
  rfl

/-- Witness for the amended C2: a lead whose mail transport rejects the
message. -/
theorem handleForm_valid_received_witness :
    inheritedName leadOpts.honeypot = false ∧
      absentOrBlank [("name", "Alice"), ("contact", "alice@x.com"), ("hp_inline", "  ")]
        leadOpts.honeypot = true ∧
      (∀ k ∈ leadOpts.required,
        absentOrBlank [("name", "Alice"), ("contact", "alice@x.com"), ("hp_inline", "  ")] k
          = false) ∧
      settles (some failingTransport) ∧
      responses (handleForm emptyEnv (some failingTransport)
          (ofFields [("name", "Alice"), ("contact", "alice@x.com"), ("hp_inline", "  ")]) leadOpts)
        = [(200, { ok := true, message := "Received", missing := none })] :=
  ⟨by decide, by decide, by decide, settles_failingTransport,
    (handleForm_valid_received emptyEnv (some failingTransport)
      [("name", "Alice"), ("contact", "alice@x.com"), ("hp_inline", "  ")] leadOpts
      (by decide) (by decide) (by decide) settles_failingTransport).1⟩

/-! ## Required-field validation -/

/-- C3, as stated, fails for names that objects inherit: on a body without
fields, `validate` does not report `toString` and `constructor`, which read as
the inherited functions, although both fields are absent. -/
theorem validate_inherited_counterexample :
    validate (ofFields []) ["toString", "constructor", "name"] = .ok ["name"] ∧
      ["toString", "constructor", "name"].filter (absentOrBlank [])
        = ["toString", "constructor", "name"] := by
  decide

/-- C3, amended: on string fields `validate` returns the names of `required`, in
the order of `required`, whose field is blank after trimming, or is absent and
not a member inherited from `Object.prototype`; for a list `required` without
inherited member names these are exactly the names whose field is absent or
blank after trimming; and for a route whose honeypot and required names are not
inherited member names, when the honeypot is absent or blank, `handleForm`
answers HTTP 400 `{ok: false, message: "Missing fields", missing}` with that list
if and only if the list is non-empty. -/
theorem validate_collects_missing (env : Env) (transporter : Option Transport)
    (fs : List (String × String)) (required : List String) (opts : RouteConfig)
    (hnames : ∀ k ∈ required, inheritedName k = false)
    (hhpname : inheritedName opts.honeypot = false)
    (hreqnames : ∀ k ∈ opts.required, inheritedName k = false)
    (hhp : absentOrBlank fs opts.honeypot = true) :
    (∀ names : List String,
        validate (ofFields fs) names = .ok (names.filter (reportedMissing fs))) ∧
      validate (ofFields fs) required = .ok (required.filter (absentOrBlank fs)) ∧
      (responses (handleForm env transporter (ofFields fs) opts)
          = [(400, { ok := false, message := "Missing fields",
                     missing := some (opts.required.filter (absentOrBlank fs)) })]
        ↔ opts.required.filter (absentOrBlank fs) ≠ []) := by
  refine ⟨validate_ofFields fs, validate_ofFields_spec fs hnames, ?_⟩
  rw [handleForm_ofFields env transporter fs opts hhpname hreqnames]
  cases hm : opts.required.filter (absentOrBlank fs) with
  | nil =>
    simp only [hhp, if_true, accepted_effects_responses]
    split <;> simp
  | cons k rest => simp [hhp, responses]

/-- Witness for the amended C3: scenario 2 of the spec, and a required list of
three names. -/
theorem validate_collects_missing_witness :
    (∀ k ∈ ["hp_inline", "contact", "name"], inheritedName k = false) ∧
      inheritedName leadOpts.honeypot = false ∧
      (∀ k ∈ leadOpts.required, inheritedName k = false) ∧
      absentOrBlank [("contact", "alice@x.com"), ("hp_inline", "")] leadOpts.honeypot = true ∧
      validate (ofFields [("contact", "alice@x.com"), ("hp_inline", "")])
          ["hp_inline", "contact", "name"]
        = .ok (["hp_inline", "contact", "name"].filter
            (absentOrBlank [("contact", "alice@x.com"), ("hp_inline", "")])) ∧
      (responses (handleForm emptyEnv none
            (ofFields [("contact", "alice@x.com"), ("hp_inline", "")]) leadOpts)
          = [(400, { ok := false, message := "Missing fields",
                     missing := some (leadOpts.required.filter
                       (absentOrBlank [("contact", "alice@x.com"), ("hp_inline", "")])) })]
        ↔ leadOpts.required.filter
            (absentOrBlank [("contact", "alice@x.com"), ("hp_inline", "")]) ≠ []) :=
  ⟨by decide, by decide, by decide, by decide,
    (validate_collects_missing emptyEnv none [("contact", "alice@x.com"), ("hp_inline", "")]
      ["hp_inline", "contact", "name"] leadOpts (by decide) (by decide) (by decide)
      (by decide)).2⟩

/-- C4, as stated, fails: a lead request without `name` whose honeypot is filled
is answered with "Spam detected", and that response has no `missing` array; and
a lead request without `name` whose honeypot holds the number 1 is answered with
HTTP 500. -/
theorem lead_missing_counterexample :
    (absentOrBlank [("contact", "alice@x.com"), ("hp_inline", "bot")] "name" = true ∨
        absentOrBlank [("contact", "alice@x.com"), ("hp_inline", "bot")] "contact" = true) ∧
      responses (apiLead emptyEnv none
          (ofFields [("contact", "alice@x.com"), ("hp_inline", "bot")]))
        = [(400, { ok := false, message := "Spam detected", missing := none })] ∧
      (¬ ∃ b, responses (apiLead emptyEnv none
            (ofFields [("contact", "alice@x.com"), ("hp_inline", "bot")])) = [(400, b)] ∧
          b.missing = some (["name", "contact"].filter
            (absentOrBlank [("contact", "alice@x.com"), ("hp_inline", "bot")]))) ∧
      lookupProp "name" [("contact", .str "alice@x.com"), ("hp_inline", .num 1)] = none ∧
      responses (apiLead emptyEnv none
          (.obj [("contact", .str "alice@x.com"), ("hp_inline", .num 1)]))
        = [(500, { ok := false, message := "Server error", missing := none })] := by
  refine ⟨Or.inl (by decide), by decide, ?_, rfl, by decide⟩
  rintro ⟨b, hb, hmiss⟩
  have hresp : responses (apiLead emptyEnv none
      (ofFields [("contact", "alice@x.com"), ("hp_inline", "bot")]))
      = [(400, { ok := false, message := "Spam detected", missing := none })] := by decide
  rw [hresp] at hb
  simp only [List.cons.injEq, Prod.mk.injEq, and_true, true_and] at hb
  subst hb
  simp at hmiss

/-- C4, amended: among the requests whose body holds string fields only, a lead
request in which `name` or `contact` is absent or blank, and a quote request in
which `name` or `email` is absent or blank, is always answered with HTTP 400;
when the honeypot of the route is absent or blank the response is "Missing
fields" and its `missing` array is the required list of the route filtered to
the absent or blank names, in that order. -/
theorem lead_quote_missing_fields (env : Env) (transporter : Option Transport)
    (fs : List (String × String)) :
    ((absentOrBlank fs "name" = true ∨ absentOrBlank fs "contact" = true) →
        (∃ b, responses (apiLead env transporter (ofFields fs)) = [(400, b)]) ∧
        (absentOrBlank fs "hp_inline" = true →
          responses (apiLead env transporter (ofFields fs))
            = [(400, { ok := false, message := "Missing fields",
                       missing := some (["name", "contact"].filter (absentOrBlank fs)) })])) ∧
      ((absentOrBlank fs "name" = true ∨ absentOrBlank fs "email" = true) →
        (∃ b, responses (apiQuote env transporter (ofFields fs)) = [(400, b)]) ∧
        (absentOrBlank fs "hp_page" = true →
          responses (apiQuote env transporter (ofFields fs))
            = [(400, { ok := false, message := "Missing fields",
                       missing := some (["name", "email"].filter (absentOrBlank fs)) })])) := by
  constructor
  · intro h
    have hm : ["name", "contact"].filter (absentOrBlank fs) ≠ [] := by
      intro hnil
      rw [List.filter_eq_nil_iff] at hnil
      rcases h with h | h
      · exact hnil "name" (by simp) h
      · exact hnil "contact" (by simp) h
    have hshape := handleForm_ofFields env transporter fs leadOpts (by decide) (by decide)
    simp only [leadOpts] at hshape
    simp only [apiLead, leadOpts]
    cases hhp : absentOrBlank fs "hp_inline" <;> simp [hshape, hhp, hm, responses]
  · intro h
    have hm : ["name", "email"].filter (absentOrBlank fs) ≠ [] := by
      intro hnil
      rw [List.filter_eq_nil_iff] at hnil
      rcases h with h | h
      · exact hnil "name" (by simp) h
      · exact hnil "email" (by simp) h
    have hshape := handleForm_ofFields env transporter fs quoteOpts (by decide) (by decide)
    simp only [quoteOpts] at hshape
    simp only [apiQuote, quoteOpts]
    cases hhp : absentOrBlank fs "hp_page" <;> simp [hshape, hhp, hm, responses]

/-- Witness for the amended C4: a lead request with a blank `contact` and no
`name`, and the same fields sent to the quote route. -/
theorem lead_quote_missing_fields_witness :
    (absentOrBlank [("contact", " "), ("email", "a@x.com")] "name" = true ∨
        absentOrBlank [("contact", " "), ("email", "a@x.com")] "contact" = true) ∧
      absentOrBlank [("contact", " "), ("email", "a@x.com")] "hp_inline" = true ∧
      responses (apiLead emptyEnv (some okTransport)
          (ofFields [("contact", " "), ("email", "a@x.com")]))
        = [(400, { ok := false, message := "Missing fields",
                   missing := some ["name", "contact"] })] ∧
      absentOrBlank [("contact", " "), ("email", "a@x.com")] "hp_page" = true ∧
      responses (apiQuote emptyEnv (some okTransport)
          (ofFields [("contact", " "), ("email", "a@x.com")]))
        = [(400, { ok := false, message := "Missing fields", missing := some ["name"] })] :=
  ⟨Or.inl (by decide), by decide,
    ((lead_quote_missing_fields emptyEnv (some okTransport)
      [("contact", " "), ("email", "a@x.com")]).1 (Or.inl (by decide))).2 (by decide),
    by decide,
    ((lead_quote_missing_fields emptyEnv (some okTransport)
      [("contact", " "), ("email", "a@x.com")]).2 (Or.inl (by decide))).2 (by decide)⟩

/-! ## Rejections have no side effect -/

/-- C5: a request that `handleForm` answers with HTTP 400 (spam or missing
fields) makes no `sendMail` call and writes no `console.log` line, with or
without a transport. -/
theorem handleForm_reject_no_dispatch (env : Env) (transporter : Option Transport)
    (body : JsVal) (opts : RouteConfig)
    (h : ∃ b, (400, b) ∈ responses (handleForm env transporter body opts)) :
    sentMails (handleForm env transporter body opts) = [] ∧
      loggedTexts (handleForm env transporter body opts) = [] := by
  obtain ⟨b, hb⟩ := h
  rcases handleForm_cases env transporter body opts with
    ⟨e, _, hrun⟩ | ⟨_, hrun⟩ | ⟨missing, _, _, _, hrun⟩ | ⟨payload, subject, text, _, _, _, _, _, hrun⟩
  · rw [hrun] at hb
    simp [responses, serverErrorResponse] at hb
  · rw [hrun]
    exact ⟨rfl, rfl⟩
  · rw [hrun]
    exact ⟨rfl, rfl⟩
  · rw [hrun, accepted_effects_responses] at hb
    cases hret : dispatchReturns env transporter subject text <;> simp [hret] at hb

/-- Witness for C5: a quote request without `email`, with a working transport. -/
theorem handleForm_reject_no_dispatch_witness :
    (∃ b, (400, b) ∈ responses (handleForm emptyEnv (some okTransport)
        (ofFields [("name", "Bob")]) quoteOpts)) ∧
      sentMails (handleForm emptyEnv (some okTransport) (ofFields [("name", "Bob")]) quoteOpts)
        = [] ∧
      loggedTexts (handleForm emptyEnv (some okTransport) (ofFields [("name", "Bob")]) quoteOpts)
        = [] :=
  ⟨⟨{ ok := false, message := "Missing fields", missing := some ["email"] }, by decide⟩,
    handleForm_reject_no_dispatch emptyEnv (some okTransport) (ofFields [("name", "Bob")])
      quoteOpts ⟨{ ok := false, message := "Missing fields", missing := some ["email"] },
        by decide⟩⟩

/-! ## Validation of arbitrary bodies -/

theorem validateStep_ok {fields : JsVal} {errors res : List String} {k : String}
    (h : validateStep fields errors k = .ok res) :
    res = errors ++ [k] ∨ (res = errors ∧ nonBlankField fields k) := by
  unfold validateStep at h
  cases hg : getProp fields k with
  | error e => simp [hg] at h
  | ok v =>
    cases ht : truthy v with
    | false =>
      simp [hg, ht] at h
      exact Or.inl h.symm
    | true =>
      cases hs : toStr v with
      | error e => simp [hg, ht, hs] at h
      | ok s =>
        by_cases hb : jsTrim s = ""
        · simp [hg, ht, hs, hb] at h
          exact Or.inl h.symm
        · simp [hg, ht, hs, hb] at h
          exact Or.inr ⟨h.symm, v, s, hg, ht, hs, hb⟩

theorem foldlM_validateStep_length (fields : JsVal) (required : List String) :
    ∀ (errors res : List String),
      required.foldlM (validateStep fields) errors = .ok res → errors.length ≤ res.length := by
  induction required with
  | nil =>
    intro errors res h
    simp [List.foldlM, pure, Except.pure] at h
    simp [h]
  | cons k rest ih =>
    intro errors res h
    simp only [List.foldlM, bind, Except.bind] at h
    cases hstep : validateStep fields errors k with
    | error e => simp [hstep] at h
    | ok mid =>
      simp only [hstep] at h
      have hlen := ih mid res h
      rcases validateStep_ok hstep with hmid | ⟨hmid, _⟩
      · rw [hmid] at hlen
        simp at hlen
        omega
      · rw [hmid] at hlen
        exact hlen

/-- When `validate` reports nothing, every required field holds a truthy value
whose string conversion is non-blank. -/
theorem validate_nil {fields : JsVal} {required : List String}
    (h : validate fields required = .ok []) : ∀ k ∈ required, nonBlankField fields k := by
  unfold validate at h
  induction required with
  | nil => intro k hk; cases hk
  | cons k rest ih =>
    simp only [List.foldlM, bind, Except.bind] at h
    cases hstep : validateStep fields [] k with
    | error e => simp [hstep] at h
    | ok mid =>
      simp only [hstep] at h
      rcases validateStep_ok hstep with hmid | ⟨hmid, hgood⟩
      · have hlen := foldlM_validateStep_length fields rest mid [] h
        rw [hmid] at hlen
        simp at hlen
      · rw [hmid] at h
        intro k' hk'
        rcases List.mem_cons.mp hk' with hk' | hk'
        · rw [hk']
          exact hgood
        · exact ih h k' hk'

theorem buildPayload_contact {body : JsVal} {payload : Payload}
    (h : buildPayload body = .ok payload) :
    ∃ email contact, getProp body "email" = .ok email ∧ getProp body "contact" = .ok contact ∧
      payload.contact = jsOr (jsOr email contact) (.str "") := by
  unfold buildPayload at h
  cases h₁ : getProp body "name" <;> cases h₂ : getProp body "email" <;>
    cases h₃ : getProp body "contact" <;> cases h₄ : getProp body "message" <;>
    cases h₅ : getProp body "project" <;> cases h₆ : getProp body "selected_service" <;>
    simp [h₁, h₂, h₃, h₄, h₅, h₆, bind, Except.bind, pure, Except.pure] at h
  exact ⟨_, _, rfl, rfl, by rw [← h]⟩

theorem buildPayload_service {body : JsVal} {payload : Payload}
    (h : buildPayload body = .ok payload) :
    ∃ svc, getProp body "selected_service" = .ok svc ∧
      payload.selected_service = jsOr svc (.str "") := by
  unfold buildPayload at h
  cases h₁ : getProp body "name" <;> cases h₂ : getProp body "email" <;>
    cases h₃ : getProp body "contact" <;> cases h₄ : getProp body "message" <;>
    cases h₅ : getProp body "project" <;> cases h₆ : getProp body "selected_service" <;>
    simp [h₁, h₂, h₃, h₄, h₅, h₆, bind, Except.bind, pure, Except.pure] at h
  exact ⟨_, rfl, by rw [← h]⟩

/-- An accepted run passed validation and built the payload. -/
theorem accepted_validated {env : Env} {transporter : Option Transport} {body : JsVal}
    {opts : RouteConfig}
    (hacc : ∃ b, (200, b) ∈ responses (handleForm env transporter body opts)) :
    validate body opts.required = .ok [] ∧ ∃ payload, buildPayload body = .ok payload := by
  obtain ⟨payload, _, _, _, hv, hp, _, _, _, _⟩ := handleForm_accepted hacc
  exact ⟨hv, payload, hp⟩

theorem jsOr_of_truthy {a : JsVal} (b : JsVal) (h : truthy a = true) : jsOr a b = a := by
  simp [jsOr, h]

theorem jsOr_of_falsy {a : JsVal} (b : JsVal) (h : truthy a = false) : jsOr a b = b := by
  simp [jsOr, h]

/-! ## Values that can be converted -/

mutual
/-- The conversion `String(v)` completes on every convertible value. -/
theorem toStr_of_convertible : ∀ v : JsVal, convertible v = true → ∃ s, toStr v = .ok s
  | .undefined, _ => ⟨_, rfl⟩
  | .null, _ => ⟨_, rfl⟩
  | .bool _, _ => ⟨_, rfl⟩
  | .num _, _ => ⟨_, rfl⟩
  | .str _, _ => ⟨_, rfl⟩
  | .builtin _, _ => ⟨_, rfl⟩
  | .arr items, h => by
    have h' : allConvertible items = true := by simpa [convertible] using h
    obtain ⟨s, hs⟩ := joinItems_of_allConvertible items h'
    exact ⟨s, by simpa [toStr] using hs⟩
  | .obj props, h => by
    have h' : lookupProp "toString" props = none := by simpa [convertible] using h
    exact ⟨"[object Object]", by simp [toStr, h']⟩
/-- The method `join` completes on an array of convertible elements. -/
theorem joinItems_of_allConvertible :
    ∀ items : List JsVal, allConvertible items = true → ∃ s, joinItems items = .ok s
  | [], _ => ⟨"", rfl⟩
  | x :: rest, h => by
    have hx : ∃ s, (match x with
        | .undefined => (.ok "" : Except JsError String)
        | .null => .ok ""
        | .bool b => toStr (.bool b)
        | .num n => toStr (.num n)
        | .str s => toStr (.str s)
        | .arr items => joinItems items
        | .obj props => toStr (.obj props)
        | .builtin rendering => toStr (.builtin rendering)) = .ok s := by
      cases x with
      | undefined => exact ⟨_, rfl⟩
      | null => exact ⟨_, rfl⟩
      | bool b => exact ⟨_, rfl⟩
      | num n => exact ⟨_, rfl⟩
      | str s => exact ⟨_, rfl⟩
      | builtin r => exact ⟨_, rfl⟩
      | arr items =>
        have h' : allConvertible items = true := by
          simp only [allConvertible] at h
          cases hi : allConvertible items with
          | true => rfl
          | false => simp [hi] at h
        exact joinItems_of_allConvertible items h'
      | obj props =>
        have h' : convertible (.obj props) = true := by
          simp only [allConvertible] at h
          cases hi : convertible (.obj props) with
          | true => rfl
          | false => simp [hi] at h
        exact toStr_of_convertible (.obj props) h'
    have hrest : allConvertible rest = true := by
      unfold allConvertible at h
      dsimp only at h
      split at h
      · cases h
      · exact h
    obtain ⟨s, hs⟩ := hx
    cases rest with
    | nil =>
      refine ⟨s, ?_⟩
      unfold joinItems
      dsimp only
      exact hs
    | cons y more =>
      obtain ⟨t, ht⟩ := joinItems_of_allConvertible (y :: more) hrest
      refine ⟨s ++ "," ++ t, ?_⟩
      unfold joinItems
      dsimp only
      rw [hs, ht]
end

/-! ## Normalization and composition -/

/-- C6: for a body of string fields the payload built by `handleForm` has
`name` = the `name` field if present and non-empty, else `""`; `contact` = `email`
if present and non-empty, else `contact` if present and non-empty, else `""`;
`message` = `message`, else `project`, else `""`; `selected_service` = that field,
else `""`.  All four values are strings. -/
theorem payload_normalized (fs : List (String × String)) :
    buildPayload (ofFields fs)
      = .ok { name := .str (firstNonEmpty fs ["name"])
              contact := .str (firstNonEmpty fs ["email", "contact"])
              message := .str (firstNonEmpty fs ["message", "project"])
              selected_service := .str (firstNonEmpty fs ["selected_service"]) } :=
  buildPayload_ofFields fs

theorem append_sep_ne_self (pre svc : String) : pre ++ " — " ++ svc ≠ pre := by
  intro h
  have hlen := congrArg String.length h
  simp only [String.length_append] at hlen
  have hsep : (" — " : String).length = 3 := by decide
  omega

/-- The subject of line 61 in terms of the field read from the body. -/
theorem composeSubject_of_service {opts : RouteConfig} {payload : Payload} {svc : JsVal}
    {subject : String}
    (hsvc : payload.selected_service = jsOr svc (.str ""))
    (hs : composeSubject opts payload = .ok subject) :
    (truthy svc = false → subject = opts.subjectPrefix) ∧
      (truthy svc = true → ∃ s, toStr svc = .ok s ∧ subject = opts.subjectPrefix ++ " — " ++ s) := by
  unfold composeSubject at hs
  rw [hsvc] at hs
  constructor
  · intro hf
    rw [jsOr_of_falsy _ hf] at hs
    simp [truthy] at hs
    exact hs.symm
  · intro ht
    rw [jsOr_of_truthy _ ht] at hs
    simp only [ht, if_true] at hs
    cases hstr : toStr svc with
    | error e => simp [hstr] at hs
    | ok s =>
      simp only [hstr, Except.ok.injEq] at hs
      exact ⟨s, rfl, by rw [← hs, String.append_assoc]⟩

/-- C7, as stated, fails for values that are not strings: an accepted quote whose
`selected_service` is the empty array gets the subject "Quote request — ", the
separator without a service, and one whose `selected_service` is the number 0
gets the bare prefix although the field is neither absent nor the empty
string. -/
theorem subject_counterexample :
    responses (handleForm emptyEnv (some okTransport)
        (.obj [("name", .str "Bob"), ("email", .str "bob@x.com"), ("selected_service", .arr [])])
        quoteOpts)
      = [(200, { ok := true, message := "Received", missing := none })] ∧
    (sentMails (handleForm emptyEnv (some okTransport)
        (.obj [("name", .str "Bob"), ("email", .str "bob@x.com"), ("selected_service", .arr [])])
        quoteOpts)).map Mail.subject = ["Quote request — "] ∧
    toStr (.arr []) = .ok "" ∧
    responses (handleForm emptyEnv (some okTransport)
        (.obj [("name", .str "Bob"), ("email", .str "bob@x.com"), ("selected_service", .num 0)])
        quoteOpts)
      = [(200, { ok := true, message := "Received", missing := none })] ∧
    getProp (.obj [("name", .str "Bob"), ("email", .str "bob@x.com"),
        ("selected_service", .num 0)]) "selected_service" = .ok (.num 0) ∧
    (sentMails (handleForm emptyEnv (some okTransport)
        (.obj [("name", .str "Bob"), ("email", .str "bob@x.com"), ("selected_service", .num 0)])
        quoteOpts)).map Mail.subject = ["Quote request"] :=
  ⟨by decide, by decide, rfl, by decide, rfl, by decide⟩

/-- C7, amended: for every accepted submission the subject composed at line 61 is
the route's subject prefix alone exactly when `selected_service` is falsy
(absent, the empty string, or another falsy value), and the prefix followed by
" — " and `String(selected_service)` when it is truthy, so the prefix followed by
" — " and the service when the service is a non-empty string.  The subject starts
with the prefix, it is the subject handed to `sendMail` when a transport
exists, and the prefixes of the two routes are "Lead form" and "Quote
request". -/
theorem subject_composed (env : Env) (transporter : Option Transport) (body : JsVal)
    (opts : RouteConfig)
    (hacc : ∃ b, (200, b) ∈ responses (handleForm env transporter body opts)) :
    ∃ svc payload subject,
      getProp body "selected_service" = .ok svc ∧
      buildPayload body = .ok payload ∧ composeSubject opts payload = .ok subject ∧
      (truthy svc = false ↔ subject = opts.subjectPrefix) ∧
      (truthy svc = true → ∃ s, toStr svc = .ok s ∧ subject = opts.subjectPrefix ++ " — " ++ s) ∧
      ((svc = .undefined ∨ svc = .str "") → subject = opts.subjectPrefix) ∧
      (∀ s, svc = .str s → s ≠ "" → subject = opts.subjectPrefix ++ " — " ++ s) ∧
      (∃ rest, subject = opts.subjectPrefix ++ rest) ∧
      (∀ t, transporter = some t →
        ∃ mail, sentMails (handleForm env transporter body opts) = [mail] ∧
          mail.subject = subject) ∧
      leadOpts.subjectPrefix = "Lead form" ∧ quoteOpts.subjectPrefix = "Quote request" := by
  obtain ⟨payload, subject, text, _, _, hp, hs, _, _, hrun⟩ := handleForm_accepted hacc
  obtain ⟨svc, hget, hsvc⟩ := buildPayload_service hp
  obtain ⟨hfalsy, htruthy⟩ := composeSubject_of_service hsvc hs
  refine ⟨svc, payload, subject, hget, hp, hs, ?_, htruthy, ?_, ?_, ?_, ?_, rfl, rfl⟩
  · constructor
    · exact hfalsy
    · intro heq
      cases ht : truthy svc with
      | false => rfl
      | true =>
        obtain ⟨s, _, hsub⟩ := htruthy ht
        rw [heq] at hsub
        exact absurd hsub.symm (append_sep_ne_self _ _)
  · rintro (h | h) <;> subst h <;> exact hfalsy rfl
  · intro s hsv hne
    subst hsv
    obtain ⟨s', hs', hsub⟩ := htruthy (by simp [truthy, hne])
    simp only [toStr, Except.ok.injEq] at hs'
    rw [hsub, ← hs']
  · cases ht : truthy svc with
    | false => exact ⟨"", by rw [hfalsy ht]; simp⟩
    | true =>
      obtain ⟨s, _, hsub⟩ := htruthy ht
      exact ⟨" — " ++ s, by rw [hsub, String.append_assoc]⟩
  · intro t htr
    subst htr
    rw [hrun]
    simp only [sentMails_append, sentMails_dispatch_some, sentMails, List.append_nil]
    exact ⟨_, rfl, rfl⟩

/-- Witness for the amended C7: a quote request that names a service. -/
theorem subject_composed_witness :
    (∃ b, (200, b) ∈ responses (handleForm emptyEnv (some okTransport)
        (ofFields [("name", "Bob"), ("email", "bob@x.com"), ("selected_service", "SEO")])
        quoteOpts)) ∧
    (sentMails (handleForm emptyEnv (some okTransport)
        (ofFields [("name", "Bob"), ("email", "bob@x.com"), ("selected_service", "SEO")])
        quoteOpts)).map Mail.subject = ["Quote request — SEO"] ∧
    ∃ svc payload subject,
      getProp (ofFields [("name", "Bob"), ("email", "bob@x.com"), ("selected_service", "SEO")])
        "selected_service" = .ok svc ∧
      buildPayload (ofFields [("name", "Bob"), ("email", "bob@x.com"), ("selected_service", "SEO")])
        = .ok payload ∧
      composeSubject quoteOpts payload = .ok subject ∧
      (truthy svc = false ↔ subject = quoteOpts.subjectPrefix) ∧
      (truthy svc = true →
        ∃ s, toStr svc = .ok s ∧ subject = quoteOpts.subjectPrefix ++ " — " ++ s) ∧
      ((svc = .undefined ∨ svc = .str "") → subject = quoteOpts.subjectPrefix) ∧
      (∀ s, svc = .str s → s ≠ "" → subject = quoteOpts.subjectPrefix ++ " — " ++ s) ∧
      (∃ rest, subject = quoteOpts.subjectPrefix ++ rest) ∧
      (∀ t, some okTransport = some t →
        ∃ mail, sentMails (handleForm emptyEnv (some okTransport)
            (ofFields [("name", "Bob"), ("email", "bob@x.com"), ("selected_service", "SEO")])
            quoteOpts) = [mail] ∧
          mail.subject = subject) ∧
      leadOpts.subjectPrefix = "Lead form" ∧ quoteOpts.subjectPrefix = "Quote request" :=
  ⟨⟨{ ok := true, message := "Received", missing := none }, by decide⟩, by decide,
    subject_composed emptyEnv (some okTransport)
      (ofFields [("name", "Bob"), ("email", "bob@x.com"), ("selected_service", "SEO")]) quoteOpts
      ⟨{ ok := true, message := "Received", missing := none }, by decide⟩⟩

/-! ## The lead route validates the raw `contact` field -/

theorem honeypotFilled_of_absent_or_blank {body : JsVal} (opts : RouteConfig) {hp : JsVal}
    (hget : getProp body opts.honeypot = .ok hp)
    (hv : hp = .undefined ∨ ∃ s, hp = .str s ∧ jsTrim s = "") :
    honeypotFilled body opts = .ok false := by
  rcases hv with hv | ⟨s, hv, hb⟩
  · subst hv
    simp [honeypotFilled, hget, truthy]
  · subst hv
    by_cases hs : s = ""
    · simp [honeypotFilled, hget, truthy, hs]
    · simp [honeypotFilled, hget, truthy, hs, callTrim, hb]

theorem validateStep_of_absent_or_blank {fields : JsVal} {k : String} {v : JsVal}
    (errors : List String) (hget : getProp fields k = .ok v)
    (hv : v = .undefined ∨ ∃ s, v = .str s ∧ jsTrim s = "") :
    validateStep fields errors k = .ok (errors ++ [k]) := by
  rcases hv with hv | ⟨s, hv, hb⟩
  · subst hv
    simp [validateStep, hget, truthy]
  · subst hv
    by_cases hs : s = ""
    · simp [validateStep, hget, truthy, hs]
    · simp [validateStep, hget, truthy, hs, toStr, hb]

theorem validateStep_of_convertible {fields : JsVal} {k : String} {v : JsVal}
    (errors : List String) (hget : getProp fields k = .ok v) (hv : convertible v = true) :
    validateStep fields errors k = .ok errors ∨
      validateStep fields errors k = .ok (errors ++ [k]) := by
  obtain ⟨s, hs⟩ := toStr_of_convertible v hv
  cases ht : truthy v with
  | false => exact Or.inr (by simp [validateStep, hget, ht])
  | true =>
    by_cases hb : jsTrim s = ""
    · exact Or.inr (by simp [validateStep, hget, ht, hs, hb])
    · exact Or.inl (by simp [validateStep, hget, ht, hs, hb])

/-- C8, as stated, fails when `String(...)` throws on the `name` field: a lead
without honeypot and without `contact` whose `name` is an object with an own
property `toString` is answered with HTTP 500, not with "Missing fields"; so is
a lead without a body. -/
theorem lead_contact_counterexample :
    getProp (.obj [("name", .obj [("toString", .num 1)]), ("email", .str "a@x.com")])
        "hp_inline" = .ok .undefined ∧
    getProp (.obj [("name", .obj [("toString", .num 1)]), ("email", .str "a@x.com")])
        "contact" = .ok .undefined ∧
    responses (apiLead emptyEnv none
        (.obj [("name", .obj [("toString", .num 1)]), ("email", .str "a@x.com")]))
      = [(500, { ok := false, message := "Server error", missing := none })] ∧
    responses (apiLead emptyEnv none .undefined)
      = [(500, { ok := false, message := "Server error", missing := none })] :=
  ⟨rfl, rfl, by decide, by decide⟩

/-- C8, amended: on the lead route, for every body that is there (not `undefined`
or `null`), whose honeypot is absent or blank, whose `contact` field is absent
or blank, and whose `name` field holds a
value that `String(...)` can convert, the response is HTTP 400 "Missing fields"
and `contact` is in `missing`, whatever `email` holds; and an accepted lead
request that carries a non-empty string `email` has that `email` as the contact
of its payload, which is the payload of the text that is logged or mailed. -/
theorem lead_contact_raw (env : Env) (transporter : Option Transport)
    (body₁ body₂ : JsVal) (hp contact name : JsVal) (e : String)
    (hhp : getProp body₁ "hp_inline" = .ok hp)
    (hhpv : hp = .undefined ∨ ∃ s, hp = .str s ∧ jsTrim s = "")
    (hcontact : getProp body₁ "contact" = .ok contact)
    (hcontactv : contact = .undefined ∨ ∃ s, contact = .str s ∧ jsTrim s = "")
    (hname : getProp body₁ "name" = .ok name) (hnamev : convertible name = true)
    (hemail : getProp body₂ "email" = .ok (.str e)) (hne : e ≠ "")
    (hacc : ∃ b, (200, b) ∈ responses (apiLead env transporter body₂)) :
    (∃ missing, responses (apiLead env transporter body₁)
          = [(400, { ok := false, message := "Missing fields", missing := some missing })] ∧
        "contact" ∈ missing) ∧
      (∃ payload text, buildPayload body₂ = .ok payload ∧ payload.contact = .str e ∧
        composeText payload = .ok text ∧
        (transporter = none → loggedTexts (apiLead env transporter body₂) = [text]) ∧
        (∀ t, transporter = some t →
          ∃ mail, sentMails (apiLead env transporter body₂) = [mail] ∧ mail.text = text)) := by
  constructor
  · have hhf : honeypotFilled body₁ leadOpts = .ok false :=
      honeypotFilled_of_absent_or_blank leadOpts hhp hhpv
    have hval : ∃ missing, validate body₁ leadOpts.required = .ok missing ∧
        "contact" ∈ missing := by
      simp only [validate, leadOpts, List.foldlM, bind, Except.bind, pure, Except.pure]
      rcases validateStep_of_convertible [] hname hnamev with h | h
      · rw [h]
        simp only []
        rw [validateStep_of_absent_or_blank [] hcontact hcontactv]
        exact ⟨_, rfl, by simp⟩
      · rw [h]
        simp only []
        rw [validateStep_of_absent_or_blank _ hcontact hcontactv]
        exact ⟨_, rfl, by simp⟩
    obtain ⟨missing, hm, hmem⟩ := hval
    refine ⟨missing, ?_, hmem⟩
    cases missing with
    | nil => cases hmem
    | cons k rest => simp [apiLead, handleForm, handleFormTry, hhf, hm, responses]
  · obtain ⟨payload, subject, text, _, _, hpl, _, ht, _, hrun⟩ := handleForm_accepted hacc
    obtain ⟨email, contact₂, he, _, hc⟩ := buildPayload_contact hpl
    rw [hemail] at he
    cases he
    have hte : truthy (.str e) = true := by simp [truthy, hne]
    refine ⟨payload, text, hpl, ?_, ht, ?_, ?_⟩
    · rw [hc, jsOr_of_truthy _ hte, jsOr_of_truthy _ hte]
    · intro htr
      subst htr
      simp only [apiLead]
      rw [hrun]
      rfl
    · intro t htr
      subst htr
      simp only [apiLead]
      rw [hrun]
      simp only [sentMails_append, sentMails_dispatch_some, sentMails, List.append_nil]
      exact ⟨_, rfl, rfl⟩

/-- Witness for the amended C8: a lead with `email` and a numeric `name` but
without `contact` is rejected, and an accepted lead with both `contact` and
`email` is relayed with the `email` value as its contact. -/
theorem lead_contact_raw_witness :
    getProp (.obj [("name", .num 7), ("email", .str "alice@x.com")]) "hp_inline"
      = .ok .undefined ∧
    getProp (.obj [("name", .num 7), ("email", .str "alice@x.com")]) "contact"
      = .ok .undefined ∧
    getProp (.obj [("name", .num 7), ("email", .str "alice@x.com")]) "name" = .ok (.num 7) ∧
    convertible (.num 7) = true ∧
    getProp (ofFields [("name", "Alice"), ("contact", "555-0100"), ("email", "alice@x.com")])
      "email" = .ok (.str "alice@x.com") ∧
    "alice@x.com" ≠ "" ∧
    (∃ b, (200, b) ∈ responses (apiLead emptyEnv none
        (ofFields [("name", "Alice"), ("contact", "555-0100"), ("email", "alice@x.com")]))) ∧
    responses (apiLead emptyEnv none (.obj [("name", .num 7), ("email", .str "alice@x.com")]))
      = [(400, { ok := false, message := "Missing fields", missing := some ["contact"] })] ∧
    loggedTexts (apiLead emptyEnv none
        (ofFields [("name", "Alice"), ("contact", "555-0100"), ("email", "alice@x.com")]))
      = ["New submission\n\nName: Alice\nContact: alice@x.com\nService: \n\nMessage:\n"] ∧
    ((∃ missing, responses (apiLead emptyEnv none
            (.obj [("name", .num 7), ("email", .str "alice@x.com")]))
          = [(400, { ok := false, message := "Missing fields", missing := some missing })] ∧
        "contact" ∈ missing) ∧
      (∃ payload text,
        buildPayload (ofFields [("name", "Alice"), ("contact", "555-0100"), ("email", "alice@x.com")])
          = .ok payload ∧
        payload.contact = .str "alice@x.com" ∧
        composeText payload = .ok text ∧
        ((none : Option Transport) = none →
          loggedTexts (apiLead emptyEnv none
            (ofFields [("name", "Alice"), ("contact", "555-0100"), ("email", "alice@x.com")]))
            = [text]) ∧
        (∀ t, (none : Option Transport) = some t →
          ∃ mail, sentMails (apiLead emptyEnv none
              (ofFields [("name", "Alice"), ("contact", "555-0100"), ("email", "alice@x.com")]))
              = [mail] ∧ mail.text = text))) :=
  ⟨rfl, rfl, rfl, rfl, rfl, by decide,
    ⟨{ ok := true, message := "Received", missing := none }, by decide⟩, by decide, by decide,
    lead_contact_raw emptyEnv none (.obj [("name", .num 7), ("email", .str "alice@x.com")])
      (ofFields [("name", "Alice"), ("contact", "555-0100"), ("email", "alice@x.com")])
      .undefined .undefined (.num 7) "alice@x.com" rfl (Or.inl rfl) rfl (Or.inl rfl) rfl rfl rfl
      (by decide) ⟨{ ok := true, message := "Received", missing := none }, by decide⟩⟩

/-! ## The `catch` block and the single response -/

/-- C9, as stated, fails for a transport whose `sendMail` never settles: the
accepted lead is handed to `sendMail` and no response is written. -/
theorem hanging_transport_counterexample :
    responses (handleForm emptyEnv (some hangingTransport)
        (ofFields [("name", "Alice"), ("contact", "a@x.com")]) leadOpts) = [] ∧
    sentMails (handleForm emptyEnv (some hangingTransport)
        (ofFields [("name", "Alice"), ("contact", "a@x.com")]) leadOpts)
      = [{ from_ := "\"Breaking Dev Lab\" <hello@breakingdevlab.example>",
           to_ := "hello@breakingdevlab.example", subject := "Lead form",
           text := "New submission\n\nName: Alice\nContact: a@x.com\nService: \n\nMessage:\n" }] := by
  decide

/-- C9, amended: `handleForm` never propagates an exception and never writes more
than one response; when no transport exists or every `sendMail` call settles
(resolves or rejects), every run writes exactly one response, with status 200,
400 or 500; a run writes no response only when a `sendMail` call was made that
never settles; whenever the `try` block raises an exception (honeypot check,
validation, normalization or composition) the response is HTTP 500
`{ok: false, message: "Server error"}`, whatever the exception and the transport;
a body that is `undefined` or `null` is such a case. -/
theorem handleForm_total (env : Env) (transporter : Option Transport) (body : JsVal)
    (opts : RouteConfig) :
    (responses (handleForm env transporter body opts)).length ≤ 1 ∧
      (settles transporter →
        ∃ status b, responses (handleForm env transporter body opts) = [(status, b)] ∧
          (status = 200 ∨ status = 400 ∨ status = 500)) ∧
      (responses (handleForm env transporter body opts) = [] →
        ∃ t mail, transporter = some t ∧ t.sendMail mail = .pending ∧
          sentMails (handleForm env transporter body opts) = [mail]) ∧
      (∀ e, handleFormTry env transporter body opts = .error e →
        responses (handleForm env transporter body opts)
          = [(500, { ok := false, message := "Server error", missing := none })]) ∧
      (∀ e, (honeypotFilled body opts = .error e ∨
            (honeypotFilled body opts = .ok false ∧ validate body opts.required = .error e) ∨
            (honeypotFilled body opts = .ok false ∧ validate body opts.required = .ok [] ∧
              (buildPayload body = .error e ∨
                ∃ payload, buildPayload body = .ok payload ∧
                  (composeSubject opts payload = .error e ∨
                    ((∃ subject, composeSubject opts payload = .ok subject) ∧
                      composeText payload = .error e))))) →
        responses (handleForm env transporter body opts)
          = [(500, { ok := false, message := "Server error", missing := none })]) ∧
      responses (handleForm env transporter .undefined opts)
        = [(500, { ok := false, message := "Server error", missing := none })] ∧
      responses (handleForm env transporter .null opts)
        = [(500, { ok := false, message := "Server error", missing := none })] := by
  refine ⟨?_, ?_, ?_, ?_, ?_, rfl, rfl⟩
  · rcases handleForm_cases env transporter body opts with
      ⟨e, _, hrun⟩ | ⟨_, hrun⟩ | ⟨missing, _, _, _, hrun⟩ |
      ⟨payload, subject, text, _, _, _, _, _, hrun⟩
    · rw [hrun]; simp [responses]
    · rw [hrun]; simp [responses]
    · rw [hrun]; simp [responses]
    · rw [hrun, accepted_effects_responses]
      split <;> simp
  · intro hsettle
    rcases handleForm_cases env transporter body opts with
      ⟨e, _, hrun⟩ | ⟨_, hrun⟩ | ⟨missing, _, _, _, hrun⟩ |
      ⟨payload, subject, text, _, _, _, _, _, hrun⟩
    · exact ⟨500, _, by rw [hrun]; rfl, Or.inr (Or.inr rfl)⟩
    · exact ⟨400, _, by rw [hrun]; rfl, Or.inr (Or.inl rfl)⟩
    · exact ⟨400, _, by rw [hrun]; rfl, Or.inr (Or.inl rfl)⟩
    · exact ⟨200, _, by
        rw [hrun, accepted_effects_responses, dispatchReturns_of_settles hsettle]
        rfl, Or.inl rfl⟩
  · intro hnone
    rcases handleForm_cases env transporter body opts with
      ⟨e, _, hrun⟩ | ⟨_, hrun⟩ | ⟨missing, _, _, _, hrun⟩ |
      ⟨payload, subject, text, _, _, _, _, _, hrun⟩
    · rw [hrun] at hnone; simp [responses] at hnone
    · rw [hrun] at hnone; simp [responses] at hnone
    · rw [hrun] at hnone; simp [responses] at hnone
    · rw [hrun, accepted_effects_responses] at hnone
      cases transporter with
      | none => simp [dispatchReturns] at hnone
      | some t =>
        cases hs : t.sendMail (composeMail env subject text) with
        | resolved => simp [dispatchReturns, hs] at hnone
        | rejected e => simp [dispatchReturns, hs] at hnone
        | pending =>
          refine ⟨t, composeMail env subject text, rfl, hs, ?_⟩
          rw [hrun]
          simp [sentMails_append, sentMails_dispatch_some, dispatchReturns, hs, sentMails]
  · intro e he
    simp [handleForm, he, responses]
  · intro e he
    rcases he with h₁ | ⟨h₁, h₂⟩ | ⟨h₁, h₂, h₃ | ⟨payload, h₃, h₄ | ⟨⟨subject, h₄⟩, h₅⟩⟩⟩
    · simp [handleForm, handleFormTry, h₁, responses]
    · simp [handleForm, handleFormTry, h₁, h₂, responses]
    · simp [handleForm, handleFormTry, h₁, h₂, h₃, responses]
    · simp [handleForm, handleFormTry, h₁, h₂, h₃, h₄, responses]
    · simp [handleForm, handleFormTry, h₁, h₂, h₃, h₄, h₅, responses]

/-- Witness for the amended C9: a lead whose honeypot holds the number 1 makes
the call `.trim()` raise, and the response is the generic HTTP 500; an accepted
lead whose `sendMail` call rejects gets exactly one response. -/
theorem handleForm_total_witness :
    handleFormTry emptyEnv (some okTransport)
        (.obj [("name", .str "Alice"), ("contact", .str "a@x.com"), ("hp_inline", .num 1)])
        leadOpts
      = .error (.typeError "trim is not a function") ∧
    responses (handleForm emptyEnv (some okTransport)
        (.obj [("name", .str "Alice"), ("contact", .str "a@x.com"), ("hp_inline", .num 1)])
        leadOpts)
      = [(500, { ok := false, message := "Server error", missing := none })] ∧
    settles (some failingTransport) ∧
    ∃ status b, responses (handleForm emptyEnv (some failingTransport)
        (ofFields [("name", "Alice"), ("contact", "a@x.com")]) leadOpts) = [(status, b)] ∧
      (status = 200 ∨ status = 400 ∨ status = 500) :=
  ⟨by decide,
    (handleForm_total emptyEnv (some okTransport)
      (.obj [("name", .str "Alice"), ("contact", .str "a@x.com"), ("hp_inline", .num 1)])
      leadOpts).2.2.2.1
      (.typeError "trim is not a function") (by decide),
    settles_failingTransport,
    (handleForm_total emptyEnv (some failingTransport)
      (ofFields [("name", "Alice"), ("contact", "a@x.com")]) leadOpts).2.1
      settles_failingTransport⟩

/-! ## Dispatch of accepted submissions -/

/-- C10: for every accepted submission (HTTP 200) the subject and text composed
from the payload exist and: with a transport, `sendMail` is called exactly once,
also when the call fails, with `to` = `TO_EMAIL`, that subject and that text, and
no `console.log` line is written; without a transport, `sendMail` is not called
and exactly one `console.log` line is written, carrying the composed text. -/
theorem accepted_dispatch (env : Env) (transporter : Option Transport) (body : JsVal)
    (opts : RouteConfig)
    (hacc : ∃ b, (200, b) ∈ responses (handleForm env transporter body opts)) :
    ∃ payload subject text,
      buildPayload body = .ok payload ∧ composeSubject opts payload = .ok subject ∧
      composeText payload = .ok text ∧
      (∀ t, transporter = some t →
        (∃ mail, sentMails (handleForm env transporter body opts) = [mail] ∧
          mail.to_ = TO_EMAIL env ∧ mail.subject = subject ∧ mail.text = text) ∧
        loggedTexts (handleForm env transporter body opts) = []) ∧
      (transporter = none →
        sentMails (handleForm env transporter body opts) = [] ∧
        loggedTexts (handleForm env transporter body opts) = [text] ∧
        handleForm env transporter body opts
          = [.consoleLog "Email not sent (no SMTP configured). Payload:\n" text,
             .respond 200 { ok := true, message := "Received", missing := none }]) := by
  obtain ⟨payload, subject, text, _, _, hp, hs, ht, _, hrun⟩ := handleForm_accepted hacc
  refine ⟨payload, subject, text, hp, hs, ht, ?_, ?_⟩
  · intro t htr
    subst htr
    rw [hrun]
    simp only [sentMails_append, sentMails_dispatch_some, loggedTexts_append,
      loggedTexts_dispatch_some, sentMails, loggedTexts, List.append_nil]
    exact ⟨⟨_, rfl, rfl, rfl, rfl⟩, trivial⟩
  · intro htr
    subst htr
    rw [hrun]
    exact ⟨rfl, rfl, rfl⟩

/-- Witness for C10: an accepted quote request whose `sendMail` call fails. -/
theorem accepted_dispatch_witness :
    (∃ b, (200, b) ∈ responses (handleForm emptyEnv (some failingTransport)
        (ofFields [("name", "Bob"), ("email", "bob@x.com")]) quoteOpts)) ∧
    ∃ payload subject text,
      buildPayload (ofFields [("name", "Bob"), ("email", "bob@x.com")]) = .ok payload ∧
      composeSubject quoteOpts payload = .ok subject ∧
      composeText payload = .ok text ∧
      (∀ t, some failingTransport = some t →
        (∃ mail, sentMails (handleForm emptyEnv (some failingTransport)
            (ofFields [("name", "Bob"), ("email", "bob@x.com")]) quoteOpts) = [mail] ∧
          mail.to_ = TO_EMAIL emptyEnv ∧ mail.subject = subject ∧ mail.text = text) ∧
        loggedTexts (handleForm emptyEnv (some failingTransport)
            (ofFields [("name", "Bob"), ("email", "bob@x.com")]) quoteOpts) = []) ∧
      (some failingTransport = none →
        sentMails (handleForm emptyEnv (some failingTransport)
            (ofFields [("name", "Bob"), ("email", "bob@x.com")]) quoteOpts) = [] ∧
        loggedTexts (handleForm emptyEnv (some failingTransport)
            (ofFields [("name", "Bob"), ("email", "bob@x.com")]) quoteOpts) = [text] ∧
        handleForm emptyEnv (some failingTransport)
            (ofFields [("name", "Bob"), ("email", "bob@x.com")]) quoteOpts
          = [.consoleLog "Email not sent (no SMTP configured). Payload:\n" text,
             .respond 200 { ok := true, message := "Received", missing := none }]) :=
  ⟨⟨{ ok := true, message := "Received", missing := none }, by decide⟩,
    accepted_dispatch emptyEnv (some failingTransport)
      (ofFields [("name", "Bob"), ("email", "bob@x.com")]) quoteOpts
      ⟨{ ok := true, message := "Received", missing := none }, by decide⟩⟩

/-! ## Substrings of the composed text -/

theorem startsWith_of_append (c : Char) (ys : List Char) :
    ∀ (w xs : List Char), c ∉ w → startsWith w (xs ++ c :: ys) = true →
      startsWith w xs = true := by
  intro w
  induction w with
  | nil => intro xs _ _; rfl
  | cons a w ih =>
    intro xs hc h
    cases xs with
    | nil =>
      simp only [List.nil_append, startsWith, Bool.and_eq_true, decide_eq_true_eq] at h
      exact absurd (h.1 ▸ List.mem_cons_self a w) hc
    | cons x xs =>
      simp only [List.cons_append, startsWith, Bool.and_eq_true, decide_eq_true_eq] at h ⊢
      exact ⟨h.1, ih xs (fun hmem => hc (List.mem_cons_of_mem a hmem)) h.2⟩

theorem occursIn_nil_of_startsWith {w : List Char} (h : startsWith w [] = true) :
    ∀ s : List Char, occursIn w s = true := by
  cases w with
  | nil => intro s; cases s <;> simp [occursIn, startsWith]
  | cons a w => simp [startsWith] at h

/-- A substring that avoids the character `c` lies on one side of `c`. -/
theorem occursIn_split (w : List Char) (c : Char) (ys : List Char) (hc : c ∉ w) :
    ∀ xs : List Char, occursIn w (xs ++ c :: ys) = true →
      occursIn w xs = true ∨ occursIn w ys = true := by
  intro xs
  induction xs with
  | nil =>
    intro h
    simp only [List.nil_append, occursIn, Bool.or_eq_true] at h
    rcases h with h | h
    · have h' := startsWith_of_append c ys w [] hc (by simpa using h)
      exact Or.inl (occursIn_nil_of_startsWith h' [])
    · exact Or.inr h
  | cons x xs ih =>
    intro h
    simp only [List.cons_append, occursIn, Bool.or_eq_true] at h ⊢
    rcases h with h | h
    · exact Or.inl (Or.inl (startsWith_of_append c ys w (x :: xs) hc (by simpa using h)))
    · rcases ih h with h' | h'
      · exact Or.inl (Or.inr h')
      · exact Or.inr h'

theorem expectedText_data (name contact svc message : String) :
    (expectedText name contact svc message).data
      = "New submission\n\nName:".data ++ ' ' :: (name.data ++ '\n' :: ("Contact:".data ++
          ' ' :: (contact.data ++ '\n' :: ("Service:".data ++ ' ' :: (svc.data ++
            '\n' :: ([] ++ '\n' :: ("Message:".data ++ '\n' :: message.data))))))) := by
  simp [expectedText, String.data_append]

/-- A word without blanks and line breaks that is not part of a label occurs in
the composed text only inside one of the four interpolated values. -/
theorem occursIn_expectedText (w : List Char) (name contact svc message : String)
    (hsp : ' ' ∉ w) (hnl : '\n' ∉ w) (hnil : occursIn w [] = false)
    (h₁ : occursIn w "New submission\n\nName:".data = false)
    (h₂ : occursIn w "Contact:".data = false)
    (h₃ : occursIn w "Service:".data = false)
    (h₄ : occursIn w "Message:".data = false)
    (h : occursIn w (expectedText name contact svc message).data = true) :
    occursIn w name.data = true ∨ occursIn w contact.data = true ∨
      occursIn w svc.data = true ∨ occursIn w message.data = true := by
  rw [expectedText_data] at h
  rcases occursIn_split w ' ' _ hsp _ h with h | h
  · simp [h₁] at h
  rcases occursIn_split w '\n' _ hnl _ h with h | h
  · exact Or.inl h
  rcases occursIn_split w ' ' _ hsp _ h with h | h
  · simp [h₂] at h
  rcases occursIn_split w '\n' _ hnl _ h with h | h
  · exact Or.inr (Or.inl h)
  rcases occursIn_split w ' ' _ hsp _ h with h | h
  · simp [h₃] at h
  rcases occursIn_split w '\n' _ hnl _ h with h | h
  · exact Or.inr (Or.inr (Or.inl h))
  rcases occursIn_split w '\n' _ hnl _ h with h | h
  · simp [hnil] at h
  rcases occursIn_split w '\n' _ hnl _ h with h | h
  · simp [h₄] at h
  exact Or.inr (Or.inr (Or.inr h))

theorem fieldOf_of_nonEmptyField {fs : List (String × String)} {k s : String}
    (h : nonEmptyField fs k = some s) : fieldOf k fs = some s := by
  unfold nonEmptyField at h
  cases hf : fieldOf k fs with
  | none => simp [hf] at h
  | some t =>
    by_cases ht : t = ""
    · simp [hf, ht] at h
    · simp [hf, ht] at h
      rw [h]

/-- The value picked by a fallback chain is empty or is one of the submitted
field values. -/
theorem firstNonEmpty_cases (fs : List (String × String)) (ks : List String) :
    firstNonEmpty fs ks = "" ∨ ∃ k ∈ ks, fieldOf k fs = some (firstNonEmpty fs ks) := by
  induction ks with
  | nil => exact Or.inl rfl
  | cons k ks ih =>
    cases h : nonEmptyField fs k with
    | some s =>
      exact Or.inr ⟨k, List.mem_cons_self k ks, by simp [firstNonEmpty, h, fieldOf_of_nonEmptyField h]⟩
    | none =>
      rcases ih with ih | ⟨k', hk', hv⟩
      · exact Or.inl (by simp [firstNonEmpty, h, ih])
      · exact Or.inr ⟨k', List.mem_cons_of_mem k hk', by simp [firstNonEmpty, h, hv]⟩

theorem hasSubstr_firstNonEmpty {fs : List (String × String)} {ks : List String} {w : String}
    (hnil : occursIn w.data [] = false)
    (h : hasSubstr (firstNonEmpty fs ks) w = true) :
    ∃ k ∈ ks, ∃ v, fieldOf k fs = some v ∧ hasSubstr v w = true := by
  rcases firstNonEmpty_cases fs ks with he | ⟨k, hk, hv⟩
  · rw [he] at h
    have : ("" : String).data = [] := rfl
    simp [hasSubstr, this, hnil] at h
  · exact ⟨k, hk, _, hv, h⟩

/-- The words "undefined" and "null" reach the composed text only through a
submitted field value. -/
theorem hasSubstr_expectedText (fs : List (String × String)) (w : String)
    (hw : w = "undefined" ∨ w = "null")
    (h : hasSubstr (expectedText (firstNonEmpty fs ["name"]) (firstNonEmpty fs ["email", "contact"])
      (firstNonEmpty fs ["selected_service"]) (firstNonEmpty fs ["message", "project"])) w = true) :
    ∃ k ∈ ["name", "email", "contact", "selected_service", "message", "project"],
      ∃ v, fieldOf k fs = some v ∧ hasSubstr v w = true := by
  have hnil : occursIn w.data [] = false := by
    rcases hw with hw | hw <;> subst hw <;> decide
  have hcases := occursIn_expectedText w.data _ _ _ _
    (by rcases hw with hw | hw <;> subst hw <;> decide)
    (by rcases hw with hw | hw <;> subst hw <;> decide) hnil
    (by rcases hw with hw | hw <;> subst hw <;> decide)
    (by rcases hw with hw | hw <;> subst hw <;> decide)
    (by rcases hw with hw | hw <;> subst hw <;> decide)
    (by rcases hw with hw | hw <;> subst hw <;> decide) h
  rcases hcases with h | h | h | h
  · obtain ⟨k, hk, v, hv, hs⟩ := hasSubstr_firstNonEmpty hnil h
    exact ⟨k, by simp at hk; simp [hk], v, hv, hs⟩
  · obtain ⟨k, hk, v, hv, hs⟩ := hasSubstr_firstNonEmpty hnil h
    exact ⟨k, by simp at hk; rcases hk with hk | hk <;> simp [hk], v, hv, hs⟩
  · obtain ⟨k, hk, v, hv, hs⟩ := hasSubstr_firstNonEmpty hnil h
    exact ⟨k, by simp at hk; simp [hk], v, hv, hs⟩
  · obtain ⟨k, hk, v, hv, hs⟩ := hasSubstr_firstNonEmpty hnil h
    exact ⟨k, by simp at hk; rcases hk with hk | hk <;> simp [hk], v, hv, hs⟩

theorem firstNonEmpty_of_absent {fs : List (String × String)} {ks : List String}
    (h : ∀ k ∈ ks, fieldOf k fs = none) : firstNonEmpty fs ks = "" := by
  induction ks with
  | nil => rfl
  | cons k ks ih =>
    have hk : nonEmptyField fs k = none := by
      simp [nonEmptyField, h k (List.mem_cons_self k ks)]
    simp only [firstNonEmpty, hk]
    exact ih (fun k' hk' => h k' (List.mem_cons_of_mem k hk'))

/-- C11, as stated, fails: an accepted lead that supplies no optional field and
whose name is the string "null" is relayed with a text that contains "null". -/
theorem text_null_counterexample :
    fieldOf "email" [("name", "null"), ("contact", "a@x.com")] = none ∧
      fieldOf "message" [("name", "null"), ("contact", "a@x.com")] = none ∧
      fieldOf "project" [("name", "null"), ("contact", "a@x.com")] = none ∧
      fieldOf "selected_service" [("name", "null"), ("contact", "a@x.com")] = none ∧
      responses (apiLead emptyEnv none (ofFields [("name", "null"), ("contact", "a@x.com")]))
        = [(200, { ok := true, message := "Received", missing := none })] ∧
      loggedTexts (apiLead emptyEnv none (ofFields [("name", "null"), ("contact", "a@x.com")]))
        = ["New submission\n\nName: null\nContact: a@x.com\nService: \n\nMessage:\n"] ∧
      hasSubstr "New submission\n\nName: null\nContact: a@x.com\nService: \n\nMessage:\n" "null"
        = true := by
  decide

/-- C11, amended: for an accepted submission of string fields the composed text
is "New submission\n\nName: " ++ name ++ "\nContact: " ++ contact ++ "\nService: "
++ selected_service ++ "\n\nMessage:\n" ++ message over the normalized payload
values; it is the text logged or mailed; when none of `message`, `project` and
`selected_service` is supplied the Service and Message sections are empty and
the text contains "undefined" or "null" only if the submitted `name`, `email` or
`contact` value contains it; in general it contains either word only if a
submitted field value contains it. -/
theorem text_composed (env : Env) (transporter : Option Transport)
    (fs : List (String × String)) (opts : RouteConfig)
    (hacc : responses (handleForm env transporter (ofFields fs) opts)
      = [(200, { ok := true, message := "Received", missing := none })]) :
    ∃ payload text,
      buildPayload (ofFields fs) = .ok payload ∧ composeText payload = .ok text ∧
      payload.name = .str (firstNonEmpty fs ["name"]) ∧
      payload.contact = .str (firstNonEmpty fs ["email", "contact"]) ∧
      payload.selected_service = .str (firstNonEmpty fs ["selected_service"]) ∧
      payload.message = .str (firstNonEmpty fs ["message", "project"]) ∧
      text = "New submission\n\nName: " ++ firstNonEmpty fs ["name"] ++ "\nContact: "
        ++ firstNonEmpty fs ["email", "contact"] ++ "\nService: "
        ++ firstNonEmpty fs ["selected_service"] ++ "\n\nMessage:\n"
        ++ firstNonEmpty fs ["message", "project"] ∧
      (transporter = none →
        loggedTexts (handleForm env transporter (ofFields fs) opts) = [text]) ∧
      (∀ t, transporter = some t →
        ∃ mail, sentMails (handleForm env transporter (ofFields fs) opts) = [mail] ∧
          mail.text = text) ∧
      (fieldOf "message" fs = none → fieldOf "project" fs = none →
        fieldOf "selected_service" fs = none →
        text = "New submission\n\nName: " ++ firstNonEmpty fs ["name"] ++ "\nContact: "
          ++ firstNonEmpty fs ["email", "contact"] ++ "\nService: " ++ "\n\nMessage:\n" ∧
        ∀ w, w = "undefined" ∨ w = "null" → hasSubstr text w = true →
          ∃ k ∈ ["name", "email", "contact"], ∃ v, fieldOf k fs = some v ∧ hasSubstr v w = true) ∧
      (∀ w, w = "undefined" ∨ w = "null" → hasSubstr text w = true →
        ∃ k v, fieldOf k fs = some v ∧ hasSubstr v w = true) := by
  have hrun := handleForm_ofFields_accepted hacc
  refine ⟨_, _, buildPayload_ofFields fs, composeText_str _ _ _ _, rfl, rfl, rfl, rfl, rfl,
    ?_, ?_, ?_, ?_⟩
  · intro htr
    subst htr
    rw [hrun]
    rfl
  · intro t htr
    subst htr
    rw [hrun]
    simp only [sentMails_append, sentMails_dispatch_some, sentMails, List.append_nil]
    exact ⟨_, rfl, rfl⟩
  · intro hm hp hs
    have hsvc : firstNonEmpty fs ["selected_service"] = "" :=
      firstNonEmpty_of_absent (by simp [hs])
    have hmsg : firstNonEmpty fs ["message", "project"] = "" :=
      firstNonEmpty_of_absent (by simp [hm, hp])
    refine ⟨by simp [hsvc, hmsg], ?_⟩
    intro w hw hsub
    obtain ⟨k, hk, v, hv, hsv⟩ := hasSubstr_expectedText fs w hw hsub
    refine ⟨k, ?_, v, hv, hsv⟩
    simp only [List.mem_cons, List.mem_singleton, List.not_mem_nil, or_false] at hk ⊢
    rcases hk with hk | hk | hk | hk | hk | hk
    · exact Or.inl hk
    · exact Or.inr (Or.inl hk)
    · exact Or.inr (Or.inr hk)
    · rw [hk, hs] at hv; cases hv
    · rw [hk, hm] at hv; cases hv
    · rw [hk, hp] at hv; cases hv
  · intro w hw hsub
    obtain ⟨k, _, v, hv, hsv⟩ := hasSubstr_expectedText fs w hw hsub
    exact ⟨k, v, hv, hsv⟩

/-- Witness for the amended C11: an accepted lead with a message, logged
because no transport exists. -/
theorem text_composed_witness :
    responses (handleForm emptyEnv none
        (ofFields [("name", "Alice"), ("contact", "a@x.com"), ("project", "undefined behaviour")])
        leadOpts)
      = [(200, { ok := true, message := "Received", missing := none })] ∧
    loggedTexts (handleForm emptyEnv none
        (ofFields [("name", "Alice"), ("contact", "a@x.com"), ("project", "undefined behaviour")])
        leadOpts)
      = ["New submission\n\nName: Alice\nContact: a@x.com\nService: \n\nMessage:\nundefined behaviour"] ∧
    ∃ k v, fieldOf k [("name", "Alice"), ("contact", "a@x.com"), ("project", "undefined behaviour")]
        = some v ∧ hasSubstr v "undefined" = true := by
  obtain ⟨payload, text, _, _, _, _, _, _, htext, _, _, _, hgen⟩ :=
    text_composed emptyEnv none
      [("name", "Alice"), ("contact", "a@x.com"), ("project", "undefined behaviour")] leadOpts
      (by decide)
  refine ⟨by decide, by decide, ?_⟩
  have hsub : hasSubstr text "undefined" = true := by
    have ht : text
        = "New submission\n\nName: Alice\nContact: a@x.com\nService: \n\nMessage:\nundefined behaviour" := by
      rw [htext]; decide
    rw [ht]; decide
  exact hgen "undefined" (Or.inl rfl) hsub

/-! ## The response depends on the body and the route only -/

theorem responses_handleForm_irrel (env : Env) (transporter : Option Transport) (body : JsVal)
    (opts : RouteConfig) (hsettle : settles transporter) :
    responses (handleForm env transporter body opts)
      = responses (handleForm emptyEnv none body opts) := by
  cases h₁ : honeypotFilled body opts with
  | error e₁ => simp [handleForm, handleFormTry, h₁, responses]
  | ok spam =>
    cases spam with
    | true => simp [handleForm, handleFormTry, h₁, responses]
    | false =>
      cases h₂ : validate body opts.required with
      | error e₂ => simp [handleForm, handleFormTry, h₁, h₂, responses]
      | ok missing =>
        cases missing with
        | cons k rest => simp [handleForm, handleFormTry, h₁, h₂, responses]
        | nil =>
          cases h₃ : buildPayload body with
          | error e₃ => simp [handleForm, handleFormTry, h₁, h₂, h₃, responses]
          | ok payload =>
            cases h₄ : composeSubject opts payload with
            | error e₄ => simp [handleForm, handleFormTry, h₁, h₂, h₃, h₄, responses]
            | ok subject =>
              cases h₅ : composeText payload with
              | error e₅ => simp [handleForm, handleFormTry, h₁, h₂, h₃, h₄, h₅, responses]
              | ok text =>
                simp only [handleForm, handleFormTry, h₁, h₂, h₃, h₄, h₅, List.length_nil,
                  bne_self_eq_false, Bool.false_eq_true, if_false]
                rw [accepted_effects_responses, accepted_effects_responses,
                  dispatchReturns_of_settles hsettle, dispatchReturns_of_settles settles_none]

/-- C12: the response of `handleForm` (status and body) is determined by the
request body and the route config: two runs that differ in the environment
variables, in whether a transport exists, or in whether `sendMail` succeeds or
fails, write the same response. -/
theorem response_independent_of_dispatch (env₁ env₂ : Env)
    (transporter₁ transporter₂ : Option Transport) (body : JsVal) (opts : RouteConfig)
    (hsettle₁ : settles transporter₁) (hsettle₂ : settles transporter₂) :
    responses (handleForm env₁ transporter₁ body opts)
      = responses (handleForm env₂ transporter₂ body opts) := by
  rw [responses_handleForm_irrel env₁ transporter₁ body opts hsettle₁,
    responses_handleForm_irrel env₂ transporter₂ body opts hsettle₂]

/-- Witness for C12: the same lead with a transport that resolves and a full SMTP
configuration, and with a transport that rejects and no configuration. -/
theorem response_independent_of_dispatch_witness :
    settles (some okTransport) ∧ settles (some failingTransport) ∧
      responses (handleForm smtpEnv (some okTransport)
          (ofFields [("name", "Alice"), ("contact", "a@x.com")]) leadOpts)
        = responses (handleForm emptyEnv (some failingTransport)
            (ofFields [("name", "Alice"), ("contact", "a@x.com")]) leadOpts) :=
  ⟨settles_okTransport, settles_failingTransport,
    response_independent_of_dispatch smtpEnv emptyEnv (some okTransport) (some failingTransport)
      (ofFields [("name", "Alice"), ("contact", "a@x.com")]) leadOpts
      settles_okTransport settles_failingTransport⟩

/-! ## Transport construction and addresses -/

/-- C13: `createTransporter` returns `null` exactly when one of `SMTP_HOST`,
`SMTP_PORT`, `SMTP_USER`, `SMTP_PASS` is unset or empty; when all four are set
and non-empty it returns the transport created from that host, that user and
password and the port `Number(SMTP_PORT)`, with `secure` true exactly when that
port is 465. -/
theorem createTransporter_spec (Number : String → Option Int)
    (createTransport : TransportOptions → Transport) (env : Env) :
    (createTransporter Number createTransport env = none ↔
        (env.SMTP_HOST = none ∨ env.SMTP_HOST = some "") ∨
        (env.SMTP_PORT = none ∨ env.SMTP_PORT = some "") ∨
        (env.SMTP_USER = none ∨ env.SMTP_USER = some "") ∨
        (env.SMTP_PASS = none ∨ env.SMTP_PASS = some "")) ∧
      (∀ host port user pass,
        env.SMTP_HOST = some host → host ≠ "" → env.SMTP_PORT = some port → port ≠ "" →
        env.SMTP_USER = some user → user ≠ "" → env.SMTP_PASS = some pass → pass ≠ "" →
        ∃ options,
          createTransporter Number createTransport env = some (createTransport options) ∧
          options.host = host ∧ options.port = Number port ∧
          options.auth = { user := user, pass := pass } ∧
          (options.secure = true ↔ options.port = some 465)) := by
  constructor
  · unfold createTransporter
    cases hh : env.SMTP_HOST <;> cases hp : env.SMTP_PORT <;> cases hu : env.SMTP_USER <;>
      cases hw : env.SMTP_PASS <;> simp
    rename_i host port user pass
    by_cases h₁ : host = "" <;> by_cases h₂ : port = "" <;> by_cases h₃ : user = "" <;>
      by_cases h₄ : pass = "" <;> simp [h₁, h₂, h₃, h₄]
  · intro host port user pass hh hhne hp hpne hu hune hw hwne
    refine ⟨{ host := host, port := Number port, secure := decide (Number port = some 465),
              auth := { user := user, pass := pass } }, ?_, rfl, rfl, rfl, ?_⟩
    · simp [createTransporter, hh, hp, hu, hw, hhne, hpne, hune, hwne]
    · simp

/-- Witness for C13: a full SMTP configuration on port 465. -/
theorem createTransporter_spec_witness :
    smtpEnv.SMTP_HOST = some "smtp.x.com" ∧ "smtp.x.com" ≠ "" ∧
    smtpEnv.SMTP_PORT = some "465" ∧ "465" ≠ "" ∧
    smtpEnv.SMTP_USER = some "ops@x.com" ∧ "ops@x.com" ≠ "" ∧
    smtpEnv.SMTP_PASS = some "secret" ∧ "secret" ≠ "" ∧
    ∃ options,
      createTransporter digitsNumber acceptingTransport smtpEnv
        = some (acceptingTransport options) ∧
      options.host = "smtp.x.com" ∧ options.port = digitsNumber "465" ∧
      options.auth = { user := "ops@x.com", pass := "secret" } ∧
      (options.secure = true ↔ options.port = some 465) :=
  ⟨rfl, by decide, rfl, by decide, rfl, by decide, rfl, by decide,
    (createTransporter_spec digitsNumber acceptingTransport smtpEnv).2
      "smtp.x.com" "465" "ops@x.com" "secret" rfl (by decide) rfl (by decide) rfl (by decide)
      rfl (by decide)⟩

theorem envOr_eq (x : Option String) (dflt : String) :
    envOr x dflt
      = (match setNonEmpty x with
        | some a => a
        | none => dflt) := by
  cases x with
  | none => rfl
  | some s => by_cases hs : s = "" <;> simp [envOr, setNonEmpty, hs]

theorem TO_EMAIL_eq (env : Env) : TO_EMAIL env = recipientSpec env := by
  simp only [TO_EMAIL, recipientSpec, envOr_eq]

/-- Every message handed to `sendMail` is the one composed at lines 66-71, and a
transport exists when there is one. -/
theorem sentMails_handleForm (env : Env) (transporter : Option Transport) (body : JsVal)
    (opts : RouteConfig) :
    ∀ mail ∈ sentMails (handleForm env transporter body opts),
      transporter.isSome = true ∧ ∃ subject text, mail = composeMail env subject text := by
  intro mail hmail
  rcases handleForm_cases env transporter body opts with
    ⟨e, _, hrun⟩ | ⟨_, hrun⟩ | ⟨missing, _, _, _, hrun⟩ |
    ⟨payload, subject, text, _, _, _, _, _, hrun⟩
  · rw [hrun] at hmail
    simp [sentMails] at hmail
  · rw [hrun] at hmail
    simp [sentMails] at hmail
  · rw [hrun] at hmail
    simp [sentMails] at hmail
  · rw [hrun, sentMails_append] at hmail
    have htail : sentMails (if dispatchReturns env transporter subject text = true then
        [Effect.respond 200 { ok := true, message := "Received", missing := none }]
        else []) = [] := by
      split <;> rfl
    rw [htail] at hmail
    cases transporter with
    | none => simp [dispatch, sentMails] at hmail
    | some t =>
      simp only [sentMails_dispatch_some, List.append_nil, List.mem_singleton] at hmail
      exact ⟨rfl, subject, text, hmail⟩

/-- C14: the recipient `TO_EMAIL` is the variable `TO_EMAIL` when set and
non-empty, otherwise `SMTP_USER` when set and non-empty, otherwise
'hello@breakingdevlab.example'; every mail handed to `sendMail` goes to that
recipient and has the from header "Breaking Dev Lab" <A>, with A = `SMTP_FROM`
when set and non-empty and otherwise the recipient. -/
theorem recipient_and_from_header (env : Env) (transporter : Option Transport) (body : JsVal)
    (opts : RouteConfig) :
    TO_EMAIL env = recipientSpec env ∧
      ∀ mail ∈ sentMails (handleForm env transporter body opts),
        mail.to_ = recipientSpec env ∧ mail.from_ = fromHeaderSpec env := by
  refine ⟨TO_EMAIL_eq env, ?_⟩
  intro mail hmail
  obtain ⟨_, subject, text, hm⟩ := sentMails_handleForm env transporter body opts mail hmail
  subst hm
  refine ⟨TO_EMAIL_eq env, ?_⟩
  simp only [composeMail, fromHeaderSpec, envOr_eq, TO_EMAIL_eq]

/-- Witness for C14: neither `TO_EMAIL` nor `SMTP_FROM` is set, so the mail goes
to and comes from `SMTP_USER`. -/
theorem recipient_and_from_header_witness :
    ({ from_ := "\"Breaking Dev Lab\" <ops@x.com>", to_ := "ops@x.com", subject := "Lead form",
       text := "New submission\n\nName: Alice\nContact: a@x.com\nService: \n\nMessage:\n" } : Mail)
        ∈ sentMails (handleForm smtpEnv (some okTransport)
            (ofFields [("name", "Alice"), ("contact", "a@x.com")]) leadOpts) ∧
      ("ops@x.com" = recipientSpec smtpEnv ∧
        "\"Breaking Dev Lab\" <ops@x.com>" = fromHeaderSpec smtpEnv) :=
  ⟨by decide,
    (recipient_and_from_header smtpEnv (some okTransport)
      (ofFields [("name", "Alice"), ("contact", "a@x.com")]) leadOpts).2
      { from_ := "\"Breaking Dev Lab\" <ops@x.com>", to_ := "ops@x.com", subject := "Lead form",
        text := "New submission\n\nName: Alice\nContact: a@x.com\nService: \n\nMessage:\n" }
      (by decide)⟩

/-! ## The contact of an accepted submission -/

/-- C15, as stated, fails on the lead route: a lead with a valid `contact` and an
`email` made of one blank is accepted, and the contact of its payload and of its
composed text is that blank. -/
theorem lead_blank_contact_counterexample :
    responses (apiLead emptyEnv none
        (ofFields [("name", "Alice"), ("contact", "a@x.com"), ("email", " ")]))
      = [(200, { ok := true, message := "Received", missing := none })] ∧
    (∃ payload,
      buildPayload (ofFields [("name", "Alice"), ("contact", "a@x.com"), ("email", " ")])
        = .ok payload ∧
      payload.contact = .str " " ∧ jsTrim " " = "") ∧
    loggedTexts (apiLead emptyEnv none
        (ofFields [("name", "Alice"), ("contact", "a@x.com"), ("email", " ")]))
      = ["New submission\n\nName: Alice\nContact:  \nService: \n\nMessage:\n"] := by
  refine ⟨by decide, ⟨_, buildPayload_ofFields _, ?_, by decide⟩, by decide⟩
  show JsVal.str _ = JsVal.str _
  congr 1

/-- C15, amended: on the quote route the contact of the payload of every accepted
submission converts to a string that is non-blank after trimming; on the lead
route that contact is the `email` field when `email` is truthy and otherwise the
validated `contact` field, so it is non-blank whenever `email` is falsy (absent
or empty) and also whenever `email` itself is non-blank. -/
theorem accepted_contact (env : Env) (transporter : Option Transport) (body : JsVal) :
    ((∃ b, (200, b) ∈ responses (apiQuote env transporter body)) →
        ∃ payload c, buildPayload body = .ok payload ∧
          toStr payload.contact = .ok c ∧ jsTrim c ≠ "") ∧
      ((∃ b, (200, b) ∈ responses (apiLead env transporter body)) →
        ∃ payload email, buildPayload body = .ok payload ∧ getProp body "email" = .ok email ∧
          (truthy email = true → payload.contact = email) ∧
          (truthy email = false →
            getProp body "contact" = .ok payload.contact ∧
            ∃ c, toStr payload.contact = .ok c ∧ jsTrim c ≠ "") ∧
          ((truthy email = false ∨ ∃ e, toStr email = .ok e ∧ jsTrim e ≠ "") →
            ∃ c, toStr payload.contact = .ok c ∧ jsTrim c ≠ "")) := by
  constructor
  · intro hacc
    obtain ⟨hval, payload, hp⟩ := accepted_validated hacc
    obtain ⟨v, s, hv, ht, hs, hb⟩ := validate_nil hval "email" (by simp [quoteOpts])
    obtain ⟨email, contact, he, _, hc⟩ := buildPayload_contact hp
    rw [hv] at he
    cases he
    refine ⟨payload, s, hp, ?_, hb⟩
    rw [hc, jsOr_of_truthy contact ht, jsOr_of_truthy _ ht]
    exact hs
  · intro hacc
    obtain ⟨hval, payload, hp⟩ := accepted_validated hacc
    obtain ⟨v, s, hv, ht, hs, hb⟩ := validate_nil hval "contact" (by simp [leadOpts])
    obtain ⟨email, contact, he, hcget, hc⟩ := buildPayload_contact hp
    rw [hv] at hcget
    cases hcget
    have htrue : truthy email = true → payload.contact = email := by
      intro hte
      rw [hc, jsOr_of_truthy v hte, jsOr_of_truthy _ hte]
    have hfalse : truthy email = false → payload.contact = v := by
      intro hfe
      rw [hc, jsOr_of_falsy v hfe, jsOr_of_truthy _ ht]
    refine ⟨payload, email, hp, he, htrue, ?_, ?_⟩
    · intro hfe
      rw [hfalse hfe]
      exact ⟨hv, s, hs, hb⟩
    · rintro (hfe | ⟨e, hes, heb⟩)
      · rw [hfalse hfe]
        exact ⟨s, hs, hb⟩
      · cases hte : truthy email with
        | false =>
          rw [hfalse hte]
          exact ⟨s, hs, hb⟩
        | true =>
          rw [htrue hte]
          exact ⟨e, hes, heb⟩

/-- Witness for the amended C15: an accepted quote request, and an accepted lead
without `email`. -/
theorem accepted_contact_witness :
    (∃ b, (200, b) ∈ responses (apiQuote emptyEnv none
        (ofFields [("name", "Bob"), ("email", "bob@x.com")]))) ∧
    (∃ payload c,
      buildPayload (ofFields [("name", "Bob"), ("email", "bob@x.com")]) = .ok payload ∧
      toStr payload.contact = .ok c ∧ jsTrim c ≠ "") ∧
    (∃ b, (200, b) ∈ responses (apiLead emptyEnv none
        (ofFields [("name", "Alice"), ("contact", "555-0100")]))) ∧
    (∃ payload c,
      buildPayload (ofFields [("name", "Alice"), ("contact", "555-0100")]) = .ok payload ∧
      toStr payload.contact = .ok c ∧ jsTrim c ≠ "") := by
  have hq : ∃ b, (200, b) ∈ responses (apiQuote emptyEnv none
      (ofFields [("name", "Bob"), ("email", "bob@x.com")])) :=
    ⟨{ ok := true, message := "Received", missing := none }, by decide⟩
  have hl : ∃ b, (200, b) ∈ responses (apiLead emptyEnv none
      (ofFields [("name", "Alice"), ("contact", "555-0100")])) :=
    ⟨{ ok := true, message := "Received", missing := none }, by decide⟩
  refine ⟨hq, (accepted_contact emptyEnv none _).1 hq, hl, ?_⟩
  obtain ⟨payload, email, hp, he, _, _, hnb⟩ := (accepted_contact emptyEnv none _).2 hl
  have hemail : email = .undefined := by
    have h := getProp_ofFields [("name", "Alice"), ("contact", "555-0100")] "email"
    rw [he] at h
    cases h
    rfl
  obtain ⟨c, hc, hb⟩ := hnb (Or.inl (by rw [hemail]; rfl))
  exact ⟨payload, c, hp, hc, hb⟩

/-! ## Non-string values -/

theorem getProp_obj_convertible {props : List (String × JsVal)} {k : String}
    (hconv : ∀ x, lookupProp k props = some x → convertible x = true) :
    ∃ v, getProp (.obj props) k = .ok v ∧ convertible v = true := by
  cases hl : lookupProp k props with
  | some x => exact ⟨x, by simp [getProp, hl], hconv x hl⟩
  | none =>
    cases hm : objectPrototypeMember k with
    | none => exact ⟨.undefined, by simp [getProp, hl, hm], rfl⟩
    | some v =>
      obtain ⟨r, hv, _⟩ := objectPrototypeMember_builtin hm
      subst hv
      exact ⟨.builtin r, by simp [getProp, hl, hm], rfl⟩

theorem validate_obj_of_convertible (props : List (String × JsVal)) (required : List String)
    (hconv : ∀ k ∈ required, ∀ x, lookupProp k props = some x → convertible x = true) :
    ∀ errors : List String,
      ∃ missing, required.foldlM (validateStep (.obj props)) errors = .ok missing := by
  induction required with
  | nil => intro errors; exact ⟨errors, rfl⟩
  | cons k rest ih =>
    intro errors
    obtain ⟨v, hget, hv⟩ := getProp_obj_convertible (hconv k (List.mem_cons_self k rest))
    have hstep : ∃ mid, validateStep (.obj props) errors k = .ok mid := by
      rcases validateStep_of_convertible errors hget hv with h | h
      · exact ⟨_, h⟩
      · exact ⟨_, h⟩
    obtain ⟨mid, hmid⟩ := hstep
    obtain ⟨missing, hm⟩ := ih (fun k' hk' => hconv k' (List.mem_cons_of_mem k hk')) mid
    exact ⟨missing, by simp only [List.foldlM, bind, Except.bind, hmid]; exact hm⟩

/-- C16, as stated, fails in its second half: `String(...)` throws on an object
that has an own property `toString`, so `validate` throws on such a value of a
required field and the lead is answered with HTTP 500. -/
theorem validate_throws_counterexample :
    validate (.obj [("name", .obj [("toString", .num 1)]), ("contact", .str "a@x.com")])
        ["name", "contact"]
      = .error (.typeError "Cannot convert object to primitive value") ∧
    responses (apiLead emptyEnv none
        (.obj [("name", .obj [("toString", .num 1)]), ("contact", .str "a@x.com")]))
      = [(500, { ok := false, message := "Server error", missing := none })] := by
  decide

/-- C16, amended: a request whose honeypot field holds a truthy value that is not
a string is answered with HTTP 500 `{ok: false, message: "Server error"}`,
whatever the other fields hold, because `.trim()` is called on the raw value;
`validate` converts with `String(...)` first and does not throw on an object body
whose required fields hold convertible values: any number, boolean, string,
`null`, an object without an own property `toString`, or an array of such
values. -/
theorem nonstring_honeypot_server_error (env : Env) (transporter : Option Transport)
    (body : JsVal) (opts : RouteConfig) (v : JsVal)
    (props : List (String × JsVal)) (required : List String)
    (hget : getProp body opts.honeypot = .ok v) (htruthy : truthy v = true)
    (hnonstr : ∀ s, v ≠ .str s)
    (hconv : ∀ k ∈ required, ∀ x, lookupProp k props = some x → convertible x = true) :
    responses (handleForm env transporter body opts)
        = [(500, { ok := false, message := "Server error", missing := none })] ∧
      ∃ missing, validate (.obj props) required = .ok missing := by
  constructor
  · have htrim : ∃ e, callTrim v = .error e := by
      cases v with
      | str s => exact absurd rfl (hnonstr s)
      | undefined => exact ⟨_, rfl⟩
      | null => exact ⟨_, rfl⟩
      | bool b => exact ⟨_, rfl⟩
      | num n => exact ⟨_, rfl⟩
      | arr items => exact ⟨_, rfl⟩
      | obj ps => exact ⟨_, rfl⟩
      | builtin r => exact ⟨_, rfl⟩
    obtain ⟨e, he⟩ := htrim
    simp [handleForm, handleFormTry, honeypotFilled, hget, htruthy, he, responses]
  · exact validate_obj_of_convertible props required hconv []

/-- Witness for the amended C16: a lead whose honeypot is the array `[1]`, and a
body whose required fields hold a number and a nested array. -/
theorem nonstring_honeypot_server_error_witness :
    getProp (.obj [("name", .str "Alice"), ("contact", .str "a@x.com"),
        ("hp_inline", .arr [.num 1])]) leadOpts.honeypot = .ok (.arr [.num 1]) ∧
    truthy (.arr [.num 1]) = true ∧
    (∀ s, JsVal.arr [.num 1] ≠ .str s) ∧
    (∀ k ∈ ["name", "contact"], ∀ x,
      lookupProp k [("name", .num 5), ("contact", .arr [.null, .arr [.obj [("a", .num 1)]]])]
        = some x → convertible x = true) ∧
    responses (handleForm emptyEnv none
        (.obj [("name", .str "Alice"), ("contact", .str "a@x.com"),
          ("hp_inline", .arr [.num 1])]) leadOpts)
      = [(500, { ok := false, message := "Server error", missing := none })] ∧
    ∃ missing,
      validate (.obj [("name", .num 5), ("contact", .arr [.null, .arr [.obj [("a", .num 1)]]])])
        ["name", "contact"] = .ok missing := by
  have hconv : ∀ k ∈ ["name", "contact"], ∀ x,
      lookupProp k [("name", .num 5), ("contact", .arr [.null, .arr [.obj [("a", .num 1)]]])]
        = some x → convertible x = true := by
    intro k hk x hx
    simp only [List.mem_cons, List.mem_singleton, List.not_mem_nil, or_false] at hk
    rcases hk with hk | hk <;> subst hk <;> simp [lookupProp] at hx <;> subst hx <;> decide
  have hns : ∀ s, JsVal.arr [.num 1] ≠ .str s := by
    intro s h
    cases h
  exact ⟨rfl, rfl, hns, hconv,
    nonstring_honeypot_server_error emptyEnv none
      (.obj [("name", .str "Alice"), ("contact", .str "a@x.com"), ("hp_inline", .arr [.num 1])])
      leadOpts (.arr [.num 1])
      [("name", .num 5), ("contact", .arr [.null, .arr [.obj [("a", .num 1)]]])]
      ["name", "contact"] rfl rfl hns hconv⟩

/-! ## The recipient when a transport exists -/

theorem createTransporter_isSome {Number : String → Option Int}
    {createTransport : TransportOptions → Transport} {env : Env}
    (h : (createTransporter Number createTransport env).isSome = true) :
    ∃ user, env.SMTP_USER = some user ∧ user ≠ "" := by
  unfold createTransporter at h
  cases hh : env.SMTP_HOST <;> cases hp : env.SMTP_PORT <;> cases hu : env.SMTP_USER <;>
    cases hw : env.SMTP_PASS <;> simp [hh, hp, hu, hw] at h
  rename_i host port user pass
  refine ⟨user, rfl, ?_⟩
  intro hempty
  simp [hempty] at h

/-- C17, as stated, fails in its last clause: with a transport and without
`TO_EMAIL`, a mail is sent to 'hello@breakingdevlab.example' when `SMTP_USER` is
that address. -/
theorem fallback_address_counterexample :
    (createTransporter digitsNumber acceptingTransport
        { SMTP_HOST := some "smtp.x.com", SMTP_PORT := some "587",
          SMTP_USER := some "hello@breakingdevlab.example", SMTP_PASS := some "secret",
          SMTP_FROM := none, TO_EMAIL := none }).isSome = true ∧
    sentMails (serveForm digitsNumber acceptingTransport
        { SMTP_HOST := some "smtp.x.com", SMTP_PORT := some "587",
          SMTP_USER := some "hello@breakingdevlab.example", SMTP_PASS := some "secret",
          SMTP_FROM := none, TO_EMAIL := none }
        (ofFields [("name", "Alice"), ("contact", "a@x.com")]) leadOpts)
      = [{ from_ := "\"Breaking Dev Lab\" <hello@breakingdevlab.example>",
           to_ := "hello@breakingdevlab.example", subject := "Lead form",
           text := "New submission\n\nName: Alice\nContact: a@x.com\nService: \n\nMessage:\n" }] := by
  decide

/-- C17, amended: when a transport exists, `SMTP_USER` is set and non-empty and
the recipient of every `sendMail` call is `TO_EMAIL` if set and non-empty and
otherwise `SMTP_USER`; the default chain reaches the hardcoded address only in
configurations without a transport, where no mail is sent; so a mail goes to
'hello@breakingdevlab.example' only if `TO_EMAIL` or `SMTP_USER` is set to that
address. -/
theorem recipient_with_transport (Number : String → Option Int)
    (createTransport : TransportOptions → Transport) (env : Env) (body : JsVal)
    (opts : RouteConfig) :
    ((createTransporter Number createTransport env).isSome = true →
        ∃ user, env.SMTP_USER = some user ∧ user ≠ "" ∧
          ∀ mail ∈ sentMails (serveForm Number createTransport env body opts),
            mail.to_ = (match setNonEmpty env.TO_EMAIL with
              | some a => a
              | none => user)) ∧
      ((setNonEmpty env.TO_EMAIL = none ∧ setNonEmpty env.SMTP_USER = none) →
        createTransporter Number createTransport env = none ∧
        sentMails (serveForm Number createTransport env body opts) = []) ∧
      (∀ mail ∈ sentMails (serveForm Number createTransport env body opts),
        mail.to_ = "hello@breakingdevlab.example" →
          env.TO_EMAIL = some "hello@breakingdevlab.example" ∨
          env.SMTP_USER = some "hello@breakingdevlab.example") := by
  have hmail : ∀ mail ∈ sentMails (serveForm Number createTransport env body opts),
      ∃ user, env.SMTP_USER = some user ∧ user ≠ "" ∧
        mail.to_ = (match setNonEmpty env.TO_EMAIL with
          | some a => a
          | none => user) := by
    intro mail hm
    obtain ⟨hsome, subject, text, hcomp⟩ := sentMails_handleForm env _ body opts mail hm
    obtain ⟨user, hu, hne⟩ := createTransporter_isSome hsome
    refine ⟨user, hu, hne, ?_⟩
    subst hcomp
    simp [composeMail, TO_EMAIL_eq, recipientSpec, hu, setNonEmpty, hne]
  refine ⟨?_, ?_, ?_⟩
  · intro hsome
    obtain ⟨user, hu, hne⟩ := createTransporter_isSome hsome
    refine ⟨user, hu, hne, ?_⟩
    intro mail hm
    obtain ⟨user', hu', _, hto⟩ := hmail mail hm
    rw [hu] at hu'
    cases hu'
    exact hto
  · rintro ⟨_, huser⟩
    have hnone : createTransporter Number createTransport env = none := by
      cases hc : createTransporter Number createTransport env with
      | none => rfl
      | some t =>
        obtain ⟨user, hu, hne⟩ := createTransporter_isSome (by rw [hc]; rfl)
        simp [setNonEmpty, hu, hne] at huser
    refine ⟨hnone, ?_⟩
    cases hs : sentMails (serveForm Number createTransport env body opts) with
    | nil => rfl
    | cons mail rest =>
      obtain ⟨user, hu, hne, _⟩ := hmail mail (by rw [hs]; exact List.mem_cons_self mail rest)
      simp [setNonEmpty, hu, hne] at huser
  · intro mail hm hto
    obtain ⟨user, hu, hne, hrec⟩ := hmail mail hm
    rw [hto] at hrec
    cases hte : env.TO_EMAIL with
    | none =>
      simp [setNonEmpty, hte] at hrec
      exact Or.inr (by rw [hu, hrec])
    | some a =>
      by_cases ha : a = ""
      · simp [setNonEmpty, hte, ha] at hrec
        exact Or.inr (by rw [hu, hrec])
      · simp [setNonEmpty, hte, ha] at hrec
        exact Or.inl (by rw [hrec])

/-- Witness for the amended C17: with a transport and `TO_EMAIL` unset, the mail
of an accepted lead goes to `SMTP_USER`. -/
theorem recipient_with_transport_witness :
    (createTransporter digitsNumber acceptingTransport smtpEnv).isSome = true ∧
    sentMails (serveForm digitsNumber acceptingTransport smtpEnv
        (ofFields [("name", "Alice"), ("contact", "a@x.com")]) leadOpts) ≠ [] ∧
    ∃ user, smtpEnv.SMTP_USER = some user ∧ user ≠ "" ∧
      ∀ mail ∈ sentMails (serveForm digitsNumber acceptingTransport smtpEnv
          (ofFields [("name", "Alice"), ("contact", "a@x.com")]) leadOpts),
        mail.to_ = (match setNonEmpty smtpEnv.TO_EMAIL with
          | some a => a
          | none => user) :=
  ⟨by decide, by decide,
    (recipient_with_transport digitsNumber acceptingTransport smtpEnv
      (ofFields [("name", "Alice"), ("contact", "a@x.com")]) leadOpts).1 (by decide)⟩


end BreakingDevLab
